import Mathlib

/-!
# Jonyski's Game of Life: a shallow embedding of `src/main.c`

The C program keeps its whole state in global variables.  The embedding makes
that state explicit: the cell array is a value of type `Grid`, and every C
function that reads or writes globals becomes a function on the values it
touches.  C `int`s are modelled by `Int` with exact arithmetic (overflow is not
modelled; the indices and counts of the program stay far below the 32-bit
limits), the C `float`s that hold times and pixel positions are modelled by
exact rationals, and C `for` loops are folds over their index range.
-/

namespace GameOfLife

/-! ## Constants (`src/main.c`, lines 28-33) -/

/-- The macro `extra_space`: `#define extra_space 10`. -/
abbrev extra_space : Nat := 10

/-- The macro `universe_width`: `#define universe_width 50 + extra_space * 2`.
The macro body is not parenthesised; the value below is the body itself. -/
abbrev universe_width : Nat := 50 + extra_space * 2

/-- The macro `universe_height`: `#define universe_height 30 + extra_space * 2`. -/
abbrev universe_height : Nat := 30 + extra_space * 2

/-- The constant `screen_width`: `const int screen_width = 1000;`. -/
def screen_width : Int := 1000

/-- The constant `screen_height`: `const int screen_height = 600;`. -/
def screen_height : Int := 600

/-- The constant `cell_size`: `const int cell_size = 20;`. -/
def cell_size : Int := 20

/-! ## The cell array -/

/-- The array type `bool [universe_height][universe_width]`: `universe_height`
rows of `universe_width` booleans each.  (The global array is called `universe`
in the source; that word is reserved in Lean, so variables holding the array
are called `univ`.) -/
abbrev Grid : Type :=
  Batteries.Vector (Batteries.Vector Bool universe_width) universe_height

/-- The condition under which the C expression `universe[i][j]` designates a
cell of the array. -/
def InBounds (i j : Int) : Prop :=
  (0 ≤ i ∧ i < universe_height) ∧ (0 ≤ j ∧ j < universe_width)

instance (i j : Int) : Decidable (InBounds i j) :=
  inferInstanceAs (Decidable ((0 ≤ i ∧ i < universe_height) ∧ (0 ≤ j ∧ j < universe_width)))

/-- Reading `universe[i][j]` with C `int` indices.  Outside the array the C
read is undefined; the model yields `false` there, and every statement about a
read carries the bounds on its indices. -/
def Grid.rd (g : Grid) (i j : Int) : Bool :=
  if h : InBounds i j then
    (g.get ⟨i.toNat, by have := h.1; omega⟩).get ⟨j.toNat, by have := h.2; omega⟩
  else false

/-- The assignment `universe[i][j] = v` with C `int` indices.  Outside the
array the C write is undefined; the model leaves the array as it is there, and
every statement about a write carries the bounds on its indices. -/
def Grid.wr (g : Grid) (i j : Int) (v : Bool) : Grid :=
  if h : InBounds i j then
    g.set ⟨i.toNat, by have := h.1; omega⟩
      ((g.get ⟨i.toNat, by have := h.1; omega⟩).set ⟨j.toNat, by have := h.2; omega⟩ v)
  else g

/-- The array whose cell in row `i`, column `j` holds `f i j`. -/
def Grid.ofFn (f : Int → Int → Bool) : Grid :=
  Batteries.Vector.ofFn (fun a => Batteries.Vector.ofFn (fun b => f (a.val : Int) (b.val : Int)))

/-- The array with every cell `false`. -/
def Grid.dead : Grid :=
  Batteries.Vector.mkVector universe_height (Batteries.Vector.mkVector universe_width false)

/-- The cast `(int) b` of a C `bool`. -/
def boolToInt (b : Bool) : Int := if b then 1 else 0

/-- The loop `for (int i = lo; i < hi; i++) body`, threading the state the
body mutates: the body runs for `i = lo, lo + 1, ..., hi - 1` in this order. -/
def forLoop {σ : Type} (lo hi : Int) (body : Int → σ → σ) (s : σ) : σ :=
  (List.range (hi - lo).toNat).foldl (fun acc (k : Nat) => body (lo + (k : Int)) acc) s

/-! ## The grid engine (`src/main.c`, lines 105-139 and 234-259) -/

/-- The function `init_universe` (lines 105-111): both loops run over the whole
array and store `false`. -/
def init_universe (univ : Grid) : Grid :=
  forLoop 0 universe_height (fun i univ =>
    forLoop 0 universe_width (fun j univ =>
      univ.wr i j false) univ) univ

/-- The function `update_cell` (lines 113-115):
`universe[y][x] = universe[y][x] ? false : true;`. -/
def update_cell (univ : Grid) (x y : Int) : Grid :=
  univ.wr y x (if univ.rd y x then false else true)

/-- The function `get_neighbors` (lines 234-259).  The local `neighbors` is
threaded through the four guarded blocks in source order. -/
def get_neighbors (univ : Grid) (x y : Int) : Int :=
  let neighbors : Int := 0
  let neighbors :=
    if y > 0 then
      -- top left
      let neighbors := if x > 0 then neighbors + boolToInt (univ.rd (y - 1) (x - 1)) else neighbors
      -- top middle
      let neighbors := neighbors + boolToInt (univ.rd (y - 1) x)
      -- top right
      if x + 1 < universe_width then neighbors + boolToInt (univ.rd (y - 1) (x + 1)) else neighbors
    else neighbors
  let neighbors :=
    if x < universe_width - 1 then
      -- middle right
      let neighbors := neighbors + boolToInt (univ.rd y (x + 1))
      -- bottom right
      if y + 1 < universe_height then neighbors + boolToInt (univ.rd (y + 1) (x + 1)) else neighbors
    else neighbors
  let neighbors :=
    if y < universe_height - 1 then
      -- bottom middle
      let neighbors := neighbors + boolToInt (univ.rd (y + 1) x)
      -- bottom left
      if x > 0 then neighbors + boolToInt (univ.rd (y + 1) (x - 1)) else neighbors
    else neighbors
  -- middle left
  if x > 0 then neighbors + boolToInt (univ.rd y (x - 1)) else neighbors

/-- The function `update_universe` (lines 117-139).  The local array
`paralel_universe` is filled by the copy loops (its storage is uninitialised in
C; the model starts it all `false`, and the copy loops overwrite every cell).
The second pair of loops then rewrites `universe` in place: each iteration
reads `universe[i][j]` from the array being written. -/
def update_universe (univ : Grid) : Grid :=
  -- creating a copy of the universe
  let paralel_universe : Grid :=
    forLoop 0 universe_height (fun i paralel_universe =>
      forLoop 0 universe_width (fun j paralel_universe =>
        paralel_universe.wr i j (univ.rd i j)) paralel_universe) Grid.dead
  -- updating the cells of the original universe
  forLoop 0 universe_height (fun i univ =>
    forLoop 0 universe_width (fun j univ =>
      -- getting the numbers of neighbors of a cell
      let neighbors := get_neighbors paralel_universe j i
      -- applying the Conway's game of life rules to the cell
      if univ.rd i j then
        if neighbors < 2 ∨ neighbors > 3 then univ.wr i j false else univ
      else
        if neighbors = 3 then univ.wr i j true else univ) univ) univ

/-! ## The controller (`src/main.c`, lines 19-22, 35-44, 88-94, 161-232, 261-271) -/

/-- The enum `FontTheme` (lines 19-22). -/
inductive FontTheme where
  | LIGHT
  | DARK
deriving DecidableEq, Repr

/-- The raylib type `Color`: four `unsigned char` components, red, green, blue
and alpha. -/
structure Color where
  r : Nat
  g : Nat
  b : Nat
  a : Nat
deriving DecidableEq, Repr

/-- The raylib type `Vector2`, its two `float` components held as exact
rationals. -/
structure Vector2 where
  x : ℚ
  y : ℚ
deriving DecidableEq

/-- The raylib key code `KEY_SPACE` (`raylib.h` is a library header, not part of
the sources; its key codes are the character codes of the keys). -/
def KEY_SPACE : Int := 32

/-- The raylib key code `KEY_MINUS`. -/
def KEY_MINUS : Int := 45

/-- The raylib key code `KEY_EQUAL`. -/
def KEY_EQUAL : Int := 61

/-- The raylib key code `KEY_ZERO`, the character code of `'0'`. -/
def KEY_ZERO : Int := 48

/-- The raylib key code `KEY_ONE`. -/
def KEY_ONE : Int := 49

/-- The raylib key code `KEY_TWO`. -/
def KEY_TWO : Int := 50

/-- The raylib key code `KEY_THREE`. -/
def KEY_THREE : Int := 51

/-- The raylib key code `KEY_FOUR`. -/
def KEY_FOUR : Int := 52

/-- The raylib key code `KEY_FIVE`. -/
def KEY_FIVE : Int := 53

/-- The raylib key code `KEY_SIX`. -/
def KEY_SIX : Int := 54

/-- The raylib key code `KEY_SEVEN`. -/
def KEY_SEVEN : Int := 55

/-- The raylib key code `KEY_EIGHT`. -/
def KEY_EIGHT : Int := 56

/-- The raylib key code `KEY_NINE`. -/
def KEY_NINE : Int := 57

/-- The global `key_press_cooldown` (line 39): `float key_press_cooldown = 0.12f;`.
No statement of the program assigns it. -/
def key_press_cooldown : ℚ := 0.12

/-- The global variables of the program (lines 34-44).  The `float` globals are
held as exact rationals. -/
structure Globals where
  /-- The array `universe`. -/
  univ : Grid
  is_simulating : Bool
  universe_tempo : ℚ
  universe_timer : ℚ
  key_press_timer : ℚ
  inactive_cell_color : Color
  active_cell_color : Color
  strong_text_color : Color
  weak_text_color : Color
  click_position : Vector2

/-- The values the globals have when `main` starts (lines 34-44); the array has
static storage, so all its cells start `false`. -/
def Globals.initial : Globals where
  univ := Grid.dead
  is_simulating := false
  universe_tempo := 0.2
  universe_timer := 0.0
  key_press_timer := 0.0
  inactive_cell_color := ⟨255, 255, 255, 255⟩
  active_cell_color := ⟨0, 0, 0, 255⟩
  strong_text_color := ⟨0, 0, 0, 50⟩
  weak_text_color := ⟨0, 0, 0, 32⟩
  click_position := ⟨-1.0, -1.0⟩

/-- The function `set_font_theme` (lines 261-271). -/
def set_font_theme (theme : FontTheme) (s : Globals) : Globals :=
  match theme with
  | FontTheme.DARK =>
    { s with strong_text_color := ⟨0, 0, 0, 50⟩, weak_text_color := ⟨0, 0, 0, 32⟩ }
  | FontTheme.LIGHT =>
    { s with strong_text_color := ⟨255, 255, 255, 50⟩, weak_text_color := ⟨255, 255, 255, 32⟩ }

/-- The `switch` of `process_keypress` (lines 162-225).  The case labels are
distinct constants, so the chain of tests below selects the same branch; a key
that matches no label changes nothing. -/
def process_keypress_switch (key_pressed : Int) (s : Globals) : Globals :=
  -- key that runs/pauses the simulation
  if key_pressed = KEY_SPACE then
    { s with is_simulating := if s.is_simulating then false else true }
  -- keys that change the simulation speed
  else if key_pressed = KEY_MINUS then
    { s with universe_tempo := s.universe_tempo + 0.02 }
  else if key_pressed = KEY_EQUAL then
    if s.universe_tempo - 0.02 ≥ 0.02 then
      { s with universe_tempo := s.universe_tempo - 0.02 }
    else s
  -- keys that change the color scheme
  else if key_pressed = KEY_ZERO then
    set_font_theme FontTheme.DARK
      { s with inactive_cell_color := ⟨255, 255, 255, 255⟩, active_cell_color := ⟨0, 0, 0, 255⟩ }
  else if key_pressed = KEY_ONE then
    set_font_theme FontTheme.LIGHT
      { s with inactive_cell_color := ⟨42, 47, 51, 255⟩, active_cell_color := ⟨61, 137, 192, 255⟩ }
  else if key_pressed = KEY_TWO then
    set_font_theme FontTheme.DARK
      { s with inactive_cell_color := ⟨197, 92, 76, 255⟩, active_cell_color := ⟨51, 40, 38, 255⟩ }
  else if key_pressed = KEY_THREE then
    set_font_theme FontTheme.LIGHT
      { s with inactive_cell_color := ⟨103, 21, 27, 255⟩, active_cell_color := ⟨22, 26, 30, 255⟩ }
  else if key_pressed = KEY_FOUR then
    set_font_theme FontTheme.DARK
      { s with inactive_cell_color := ⟨232, 170, 155, 255⟩,
               active_cell_color := ⟨227, 211, 196, 255⟩ }
  else if key_pressed = KEY_FIVE then
    set_font_theme FontTheme.LIGHT
      { s with inactive_cell_color := ⟨1, 46, 64, 255⟩, active_cell_color := ⟨242, 227, 213, 255⟩ }
  else if key_pressed = KEY_SIX then
    set_font_theme FontTheme.DARK
      { s with inactive_cell_color := ⟨217, 17, 71, 255⟩, active_cell_color := ⟨242, 230, 56, 255⟩ }
  else if key_pressed = KEY_SEVEN then
    set_font_theme FontTheme.LIGHT
      { s with inactive_cell_color := ⟨34, 35, 38, 255⟩, active_cell_color := ⟨137, 217, 126, 255⟩ }
  else if key_pressed = KEY_EIGHT then
    set_font_theme FontTheme.DARK
      { s with inactive_cell_color := ⟨89, 52, 59, 255⟩, active_cell_color := ⟨74, 103, 140, 255⟩ }
  else if key_pressed = KEY_NINE then
    set_font_theme FontTheme.DARK
      { s with inactive_cell_color := ⟨60, 61, 89, 255⟩, active_cell_color := ⟨242, 120, 75, 255⟩ }
  else s

/-- The key-repeat block of `process_keypress` (lines 227-231).  `IsKeyDown` is
the raylib query for a key being held down during this frame. -/
def process_keypress_repeat (IsKeyDown : Int → Bool) (s : Globals) : Globals :=
  if s.key_press_timer ≥ key_press_cooldown then
    let s := if IsKeyDown KEY_MINUS then
        { s with universe_tempo := s.universe_tempo + 0.02 }
      else s
    let s := if IsKeyDown KEY_EQUAL then
        (if s.universe_tempo - 0.02 ≥ 0.02 then
          { s with universe_tempo := s.universe_tempo - 0.02 }
        else s)
      else s
    { s with key_press_timer := 0.0 }
  else s

/-- The function `process_keypress` (lines 161-232): the `switch` on the key,
then the key-repeat block. -/
def process_keypress (IsKeyDown : Int → Bool) (key_pressed : Int) (s : Globals) : Globals :=
  process_keypress_repeat IsKeyDown (process_keypress_switch key_pressed s)

/-- The column index computed from a click in `main` (line 91):
`(int) floor(click_position.x / (screen_width / (universe_width - 2 * extra_space))) + extra_space`.
The inner quotient is a division of `int`s; the outer one divides the pixel
coordinate, held as an exact rational, and the cast `(int)` of the floor is
taken to be exact. -/
def click_cell_x (click_position : Vector2) : Int :=
  ⌊click_position.x / ((screen_width / (universe_width - 2 * extra_space) : Int) : ℚ)⌋
    + extra_space

/-- The row index computed from a click in `main` (line 92):
`(int) floor(click_position.y / (screen_height / (universe_height - 2 * extra_space))) + extra_space`. -/
def click_cell_y (click_position : Vector2) : Int :=
  ⌊click_position.y / ((screen_height / (universe_height - 2 * extra_space) : Int) : ℚ)⌋
    + extra_space

/-- The click handling of the frame loop in `main` (lines 88-94), given the
position `get_click` returned: the only test before the toggle is
`click_position.x >= 0`.  When the indices computed fall outside the array the
C store in `update_cell` is undefined, and the model (see `Grid.wr`) does not
describe it; statements about a handled click carry the bounds on the
indices. -/
def main_click (click_position : Vector2) (univ : Grid) : Grid :=
  if click_position.x ≥ 0 then
    -- finding the indexes of the cell to switch
    let cell_x := click_cell_x click_position
    let cell_y := click_cell_y click_position
    update_cell univ cell_x cell_y
  else univ

/-- A call `DrawRectangle(posX, posY, width, height, color)` of raylib: a filled
rectangle with its top-left corner at pixel `(posX, posY)`. -/
structure DrawRectangle where
  posX : Int
  posY : Int
  width : Int
  height : Int
  color : Color
deriving DecidableEq, Repr

/-- The function `render_universe` (lines 140-150).  The state threaded through
the loops is the pair of the globals and the list of the rectangles drawn so
far, in drawing order; the loop bounds are the macro expressions of the
source. -/
def render_universe (w : Globals × List DrawRectangle) : Globals × List DrawRectangle :=
  forLoop extra_space (universe_height - extra_space) (fun i w =>
    forLoop extra_space (universe_width - extra_space) (fun j w =>
      if w.1.univ.rd i j then
        let x := j - extra_space
        let y := i - extra_space
        (w.1, w.2 ++ [⟨x * cell_size, y * cell_size, cell_size, cell_size,
          w.1.active_cell_color⟩])
      else w) w) w

/-- The function `get_click` (lines 152-159).  `IsMouseButtonPressed` is the
raylib query for the left button having been pressed this frame and
`GetMousePosition` the pointer position raylib reports. -/
def get_click (IsMouseButtonPressed : Bool) (GetMousePosition : Vector2) (s : Globals) :
    Globals :=
  if IsMouseButtonPressed then
    { s with click_position := GetMousePosition }
  else
    { s with click_position := ⟨-1.0, -1.0⟩ }

/-- The step gating of the frame loop in `main` (lines 80-86); `GetFrameTime` is
the frame time raylib reports during this frame. -/
def main_simulate (GetFrameTime : ℚ) (s : Globals) : Globals :=
  if s.is_simulating then
    let s := { s with universe_timer := s.universe_timer + GetFrameTime }
    if s.universe_timer ≥ s.universe_tempo then
      { s with univ := update_universe s.univ, universe_timer := 0.0 }
    else s
  else s

/-- What raylib reports during one frame: the frame time, the key pressed this
frame (0 when none), the keys held down, and the mouse button and position. -/
structure FrameInput where
  GetFrameTime : ℚ
  GetKeyPressed : Int
  IsKeyDown : Int → Bool
  IsMouseButtonPressed : Bool
  GetMousePosition : Vector2

/-- One pass through the body of the frame loop of `main` (lines 70-97): the
key-repeat timer, the key dispatch, the step gating, the click and the
rendering of the cells, which yields the rectangles of this frame.  The calls
that clear the frame and draw the three status texts (lines 71-74) assign no
global and are left out. -/
def main_frame (inp : FrameInput) (s : Globals) : Globals × List DrawRectangle :=
  let s := { s with key_press_timer := s.key_press_timer + inp.GetFrameTime }
  let key_pressed := inp.GetKeyPressed
  let s := process_keypress inp.IsKeyDown key_pressed s
  let s := main_simulate inp.GetFrameTime s
  -- checking for mouse clicks
  let s := get_click inp.IsMouseButtonPressed inp.GetMousePosition s
  let s := { s with univ := main_click s.click_position s.univ }
  render_universe (s, [])

/-- The globals after the key dispatch of a frame (lines 76-78 of `main`): the
frame time is added to the key-repeat timer and `process_keypress` runs. -/
def main_dispatch (inp : FrameInput) (s : Globals) : Globals :=
  process_keypress inp.IsKeyDown inp.GetKeyPressed
    { s with key_press_timer := s.key_press_timer + inp.GetFrameTime }

/-- The rectangle `render_universe` draws for the cell in row `i`, column `j`
(lines 144-146). -/
def cell_rect (c : Color) (i j : Int) : DrawRectangle :=
  ⟨(j - extra_space) * cell_size, (i - extra_space) * cell_size, cell_size, cell_size, c⟩

/-- The pixel position `(p, q)` lies in the rectangle: at or after its left and
top edges, before its right and bottom edges. -/
def DrawRectangle.covers (r : DrawRectangle) (p q : ℚ) : Prop :=
  (r.posX ≤ p ∧ p < r.posX + r.width) ∧ (r.posY ≤ q ∧ q < r.posY + r.height)

/-- The keys the `switch` of `process_keypress` has a case for. -/
def handled_keys : List Int :=
  [KEY_SPACE, KEY_MINUS, KEY_EQUAL, KEY_ZERO, KEY_ONE, KEY_TWO, KEY_THREE, KEY_FOUR, KEY_FIVE,
    KEY_SIX, KEY_SEVEN, KEY_EIGHT, KEY_NINE]

/-- A frame of 16 ms with no key pressed or held and a click at pixel
`(305, 207)`. -/
def sample_frame_input : FrameInput :=
  ⟨0.016, 0, fun _ => false, true, ⟨305, 207⟩⟩

/-- The start-up state, set running, with 0.19 s on the step timer. -/
def sample_running_state : Globals :=
  { Globals.initial with is_simulating := true, universe_timer := 0.19 }

/-- One frame's input to `process_keypress`: the key `GetKeyPressed` returned,
the held-key state `IsKeyDown` reports, and the value `key_press_timer` has when
the function is entered (the frame loop has added the frame time to it). -/
structure KeyFrame where
  key_pressed : Int
  IsKeyDown : Int → Bool
  key_press_timer : ℚ

/-- A sequence of calls to `process_keypress`, one per frame, the key-repeat
timer taking the frame's value before each call. -/
def process_keypress_seq (frames : List KeyFrame) (s : Globals) : Globals :=
  frames.foldl (fun s f =>
    process_keypress f.IsKeyDown f.key_pressed { s with key_press_timer := f.key_press_timer }) s

/-- The four theme colours of a state, in the order dead-cell colour, alive-cell
colour, strong text colour, weak text colour. -/
def Globals.theme (s : Globals) : Color × Color × Color × Color :=
  (s.inactive_cell_color, s.active_cell_color, s.strong_text_color, s.weak_text_color)

/-! ## The generation step as the specification words it -/

/-- The rule of the specification for one cell: a live cell with `n < 2` or
`n > 3` becomes dead, a dead cell with exactly `n = 3` becomes alive, every
other cell is unchanged. -/
def conway_rule (alive : Bool) (n : Int) : Bool :=
  if alive then (if n < 2 ∨ n > 3 then false else alive)
  else (if n = 3 then true else alive)

/-- The step of the specification: the rule applied to all cells at once, every
neighbour count taken on the grid as it was before the step. -/
def step_simultaneous (g : Grid) : Grid :=
  Grid.ofFn (fun i j => conway_rule (g.rd i j) (get_neighbors g j i))

/-- The grid whose live cells are exactly the listed ones, each given as
`(x, y)`: column first, row second. -/
def grid_of_cells (cells : List (Int × Int)) : Grid :=
  Grid.ofFn (fun i j => decide ((j, i) ∈ cells))

/-- The eight offsets `(dx, dy)` of the specification: the pairs drawn from
`{-1, 0, 1}` other than `(0, 0)`. -/
def neighbour_offsets : List (Int × Int) :=
  (List.product [-1, 0, 1] [-1, 0, 1]).filter (fun d => decide (d ≠ (0, 0)))

/-- The neighbour count as the specification words it: the number of offsets
`(dx, dy)` for which `(x + dx, y + dy)` lies inside the grid and the cell in row
`y + dy`, column `x + dx` is alive.  Positions outside the grid are not
counted. -/
def count_live_neighbours (g : Grid) (x y : Int) : Nat :=
  neighbour_offsets.countP (fun d =>
    decide ((0 ≤ x + d.1 ∧ x + d.1 < 70) ∧ (0 ≤ y + d.2 ∧ y + d.2 < 50))
      && g.rd (y + d.2) (x + d.1))

/-! ## Small patterns -/

/-- The rule applied at offset `(dx, dy)` from the centre of a pattern given by
the offsets `base` of its live cells: the cell at the offset and its eight
neighbours are alive exactly when their offsets are listed. -/
def pattern_rule (base : List (Int × Int)) (dx dy : Int) : Bool :=
  conway_rule (decide ((dx, dy) ∈ base))
    (boolToInt (decide ((dx - 1, dy - 1) ∈ base)) + boolToInt (decide ((dx, dy - 1) ∈ base))
      + boolToInt (decide ((dx + 1, dy - 1) ∈ base)) + boolToInt (decide ((dx + 1, dy) ∈ base))
      + boolToInt (decide ((dx + 1, dy + 1) ∈ base)) + boolToInt (decide ((dx, dy + 1) ∈ base))
      + boolToInt (decide ((dx - 1, dy + 1) ∈ base)) + boolToInt (decide ((dx - 1, dy) ∈ base)))

/-- The start of the blinker scenario: `init_universe`, then `update_cell` at
`(cx - 1, cy)`, `(cx, cy)` and `(cx + 1, cy)`. -/
def blinker_start (g0 : Grid) (cx cy : Int) : Grid :=
  update_cell (update_cell (update_cell (init_universe g0) (cx - 1) cy) cx cy) (cx + 1) cy

/-! ## Reading and writing cells -/

theorem universe_height_eq : universe_height = 50 := rfl

theorem universe_width_eq : universe_width = 70 := rfl

theorem inBounds_iff (i j : Int) : InBounds i j ↔ (0 ≤ i ∧ i < 50) ∧ (0 ≤ j ∧ j < 70) := by
  unfold InBounds
  simp only [universe_height, universe_width, extra_space]
  norm_num

theorem vector_get_set {α : Type} {n : Nat} (v : Batteries.Vector α n) (i k : Fin n) (x : α) :
    (v.set i x).get k = if i = k then x else v.get k := by
  unfold Batteries.Vector.get Batteries.Vector.set
  simp only [Array.get_eq_getElem, Fin.coe_cast]
  rw [Array.getElem_set]
  simp only [Fin.coe_cast]
  by_cases h : i = k
  · simp [h]
  · have : (i : Nat) ≠ k := fun e => h (Fin.ext e)
    simp [h, this]

theorem vector_get_ofFn {α : Type} {n : Nat} (f : Fin n → α) (k : Fin n) :
    (Batteries.Vector.ofFn f).get k = f k := by
  unfold Batteries.Vector.get Batteries.Vector.ofFn
  simp

theorem vector_get_mkVector {α : Type} {n : Nat} (x : α) (k : Fin n) :
    (Batteries.Vector.mkVector n x).get k = x := by
  unfold Batteries.Vector.get Batteries.Vector.mkVector
  simp

theorem vector_ext_get {α : Type} {n : Nat} {v w : Batteries.Vector α n}
    (h : ∀ k : Fin n, v.get k = w.get k) : v = w := by
  apply Batteries.Vector.ext
  intro i hi
  exact h ⟨i, hi⟩

theorem inBounds_coe (a : Fin universe_height) (b : Fin universe_width) :
    InBounds (a.val : Int) (b.val : Int) := by
  refine ⟨⟨by omega, ?_⟩, ⟨by omega, ?_⟩⟩
  · exact_mod_cast a.isLt
  · exact_mod_cast b.isLt

theorem Grid.rd_of_inBounds (g : Grid) {i j : Int} (h : InBounds i j) :
    g.rd i j
      = (g.get ⟨i.toNat, by have := h.1; omega⟩).get ⟨j.toNat, by have := h.2; omega⟩ := by
  unfold Grid.rd
  rw [dif_pos h]

theorem Grid.rd_of_not_inBounds (g : Grid) {i j : Int} (h : ¬ InBounds i j) :
    g.rd i j = false := by
  unfold Grid.rd
  rw [dif_neg h]

theorem Grid.rd_coe (g : Grid) (a : Fin universe_height) (b : Fin universe_width) :
    g.rd (a.val : Int) (b.val : Int) = (g.get a).get b := by
  rw [Grid.rd_of_inBounds g (inBounds_coe a b)]
  congr 1

/-- Two arrays with the same cells are the same array. -/
theorem Grid.ext_rd {g h : Grid} (H : ∀ i j : Int, InBounds i j → g.rd i j = h.rd i j) :
    g = h := by
  apply vector_ext_get
  intro a
  apply vector_ext_get
  intro b
  have := H _ _ (inBounds_coe a b)
  rwa [Grid.rd_coe, Grid.rd_coe] at this

/-- A write changes the cell written, when it is a cell of the array, and no
other cell. -/
theorem Grid.rd_wr (g : Grid) (i j a b : Int) (v : Bool) :
    (g.wr i j v).rd a b = if InBounds a b ∧ a = i ∧ b = j then v else g.rd a b := by
  by_cases hab : InBounds a b
  · by_cases hij : InBounds i j
    · rw [Grid.rd_of_inBounds _ hab, Grid.rd_of_inBounds _ hab]
      unfold Grid.wr
      rw [dif_pos hij, vector_get_set]
      have h1 := hab.1.1
      have h2 := hab.2.1
      have h3 := hij.1.1
      have h4 := hij.2.1
      by_cases hi : a = i
      · subst hi
        rw [if_pos rfl, vector_get_set]
        by_cases hj : b = j
        · subst hj
          rw [if_pos rfl, if_pos ⟨hab, rfl, rfl⟩]
        · have hc : ¬ (InBounds a b ∧ a = a ∧ b = j) := fun h => hj h.2.2
          have hn : j.toNat ≠ b.toNat := by omega
          rw [if_neg hc, if_neg (fun h => hn (congrArg Fin.val h))]
      · have hc : ¬ (InBounds a b ∧ a = i ∧ b = j) := fun h => hi h.2.1
        have hn : i.toNat ≠ a.toNat := by omega
        rw [if_neg hc, if_neg (fun h => hn (congrArg Fin.val h))]
    · have : ¬ (InBounds a b ∧ a = i ∧ b = j) := by
        rintro ⟨h, rfl, rfl⟩
        exact hij h
      rw [if_neg this]
      unfold Grid.wr
      rw [dif_neg hij]
  · rw [Grid.rd_of_not_inBounds _ hab, Grid.rd_of_not_inBounds _ hab]
    simp [hab]

/-- The cells of `Grid.ofFn f` are the values of `f`. -/
theorem Grid.rd_ofFn (f : Int → Int → Bool) {i j : Int} (h : InBounds i j) :
    (Grid.ofFn f).rd i j = f i j := by
  rw [Grid.rd_of_inBounds _ h]
  unfold Grid.ofFn
  rw [vector_get_ofFn, vector_get_ofFn]
  simp only
  rw [Int.toNat_of_nonneg h.1.1, Int.toNat_of_nonneg h.2.1]

/-- Every cell of `Grid.dead` is dead. -/
theorem Grid.rd_dead (i j : Int) : Grid.dead.rd i j = false := by
  by_cases h : InBounds i j
  · rw [Grid.rd_of_inBounds _ h]
    unfold Grid.dead
    rw [vector_get_mkVector, vector_get_mkVector]
  · exact Grid.rd_of_not_inBounds _ h

/-- Storing into a cell the value it already holds changes nothing. -/
theorem Grid.wr_rd_self (g : Grid) (i j : Int) : g.wr i j (g.rd i j) = g := by
  apply Grid.ext_rd
  intro a b _
  rw [Grid.rd_wr]
  split_ifs with h
  · rw [h.2.1, h.2.2]
  · rfl

/-! ## Loops -/

theorem forLoop_nat {σ : Type} (n : Nat) (body : Int → σ → σ) (s : σ) :
    forLoop 0 (n : Int) body s
      = (List.range n).foldl (fun acc (k : Nat) => body (k : Int) acc) s := by
  unfold forLoop
  simp

theorem forLoop_zero {σ : Type} (body : Int → σ → σ) (s : σ) :
    forLoop 0 ((0 : Nat) : Int) body s = s := by
  rw [forLoop_nat]; rfl

theorem forLoop_succ {σ : Type} (n : Nat) (body : Int → σ → σ) (s : σ) :
    forLoop 0 ((n + 1 : Nat) : Int) body s = body (n : Int) (forLoop 0 (n : Int) body s) := by
  rw [forLoop_nat, forLoop_nat, List.range_succ, List.foldl_append]
  rfl

/-- One row of a cell-by-cell rewrite: the inner loop over the first `w`
columns of row `i`, where the body stores at `(i, j)` a value computed from the
value the same cell holds at that moment. -/
theorem rd_rowLoop (F : Int → Int → Bool → Bool) (i : Int) (w : Nat) (g : Grid) (a b : Int) :
    (forLoop 0 (w : Int) (fun j u => u.wr i j (F i j (u.rd i j))) g).rd a b
      = if InBounds a b ∧ a = i ∧ b < w then F a b (g.rd a b) else g.rd a b := by
  induction w with
  | zero =>
    rw [forLoop_zero]
    have : ¬ (InBounds a b ∧ a = i ∧ b < ((0 : Nat) : Int)) := by
      rintro ⟨h, -, h3⟩
      have := h.2.1
      omega
    rw [if_neg this]
  | succ w ih =>
    rw [forLoop_succ, Grid.rd_wr]
    by_cases hab : InBounds a b ∧ a = i ∧ b = (w : Int)
    · rw [if_pos hab]
      obtain ⟨h1, h2, h3⟩ := hab
      have hlt : InBounds a b ∧ a = i ∧ b < ((w + 1 : Nat) : Int) := ⟨h1, h2, by omega⟩
      rw [if_pos hlt]
      subst h2 h3
      have ih2 : (forLoop 0 (w : Int) (fun j u => u.wr a j (F a j (u.rd a j))) g).rd a (w : Int)
          = g.rd a (w : Int) := by
        rw [ih]
        apply if_neg
        rintro ⟨-, -, h⟩
        omega
      rw [ih2]
    · rw [if_neg hab, ih]
      by_cases hc : InBounds a b ∧ a = i ∧ b < (w : Int)
      · rw [if_pos hc, if_pos ⟨hc.1, hc.2.1, by have := hc.2.2; omega⟩]
      · rw [if_neg hc, if_neg]
        rintro ⟨h1, h2, h3⟩
        have : b ≠ (w : Int) := fun h => hab ⟨h1, h2, h⟩
        exact hc ⟨h1, h2, by omega⟩

/-- A cell-by-cell rewrite of the first `h` rows and `w` columns: both loops run,
and every cell of that block ends with the value computed from what the cell
held before the loops started; cells outside the block keep their value. -/
theorem rd_gridLoop (F : Int → Int → Bool → Bool) (h w : Nat) (g : Grid) (a b : Int) :
    (forLoop 0 (h : Int) (fun i u =>
        forLoop 0 (w : Int) (fun j u => u.wr i j (F i j (u.rd i j))) u) g).rd a b
      = if InBounds a b ∧ a < h ∧ b < w then F a b (g.rd a b) else g.rd a b := by
  induction h with
  | zero =>
    rw [forLoop_zero]
    have : ¬ (InBounds a b ∧ a < ((0 : Nat) : Int) ∧ b < (w : Int)) := by
      rintro ⟨h, h2, -⟩
      have := h.1.1
      omega
    rw [if_neg this]
  | succ h ih =>
    rw [forLoop_succ, rd_rowLoop, ih]
    by_cases hI : InBounds a b <;> by_cases hb : b < (w : Int) <;>
      simp only [hI, hb, true_and, and_true, false_and, and_false, if_false]
    split_ifs <;> first | rfl | omega

/-! ## The generation step -/

/-- The copy loops of `update_universe` produce the array they copy, whatever
the local array held before. -/
theorem copy_loops_eq (g p : Grid) :
    forLoop 0 universe_height (fun i paralel_universe =>
      forLoop 0 universe_width (fun j paralel_universe =>
        paralel_universe.wr i j (g.rd i j)) paralel_universe) p = g := by
  apply Grid.ext_rd
  intro a b hab
  have h := rd_gridLoop (fun i j _ => g.rd i j) universe_height universe_width p a b
  rw [h, if_pos ⟨hab, hab.1.2, hab.2.2⟩]

/-- The body of the rewriting loops of `update_universe` stores the rule's
value for the cell it visits. -/
theorem update_body_eq (p u : Grid) (i j : Int) :
    (if u.rd i j then
        if get_neighbors p j i < 2 ∨ get_neighbors p j i > 3 then u.wr i j false else u
      else
        if get_neighbors p j i = 3 then u.wr i j true else u)
      = u.wr i j (conway_rule (u.rd i j) (get_neighbors p j i)) := by
  unfold conway_rule
  cases hu : u.rd i j
  · by_cases h3 : get_neighbors p j i = 3
    · simp [h3]
    · simp only [h3, if_false, Bool.false_eq_true]
      rw [← hu, Grid.wr_rd_self]
  · by_cases h : get_neighbors p j i < 2 ∨ get_neighbors p j i > 3
    · simp [h]
    · simp only [h, if_false, if_true]
      rw [← hu, Grid.wr_rd_self]

/-- Every cell after `update_universe` holds the rule's value for the cell and
its neighbour count on the grid before the step. -/
theorem rd_update_universe (g : Grid) (i j : Int) (hij : InBounds i j) :
    (update_universe g).rd i j = conway_rule (g.rd i j) (get_neighbors g j i) := by
  unfold update_universe
  simp only [copy_loops_eq, update_body_eq]
  have h := rd_gridLoop (fun i j c => conway_rule c (get_neighbors g j i))
    universe_height universe_width g i j
  rw [h, if_pos ⟨hij, hij.1.2, hij.2.2⟩]

theorem conway_rule_iff (c : Bool) (n : Int) :
    conway_rule c n = true ↔ (c = true ∧ (n = 2 ∨ n = 3)) ∨ (c = false ∧ n = 3) := by
  unfold conway_rule
  cases c <;> simp
  omega

/-- Claim C1.  For every grid and every cell `(x, y)` of the array, after
`update_universe` the cell at row `y`, column `x` is alive exactly when, with
the neighbour count taken on the grid before the step, it was alive with 2 or 3
neighbours or dead with exactly 3; and the in-place loops produce the grid that
the rule gives when applied to all cells at once. -/
theorem update_universe_conway (g : Grid) (x y : Int)
    (hx : 0 ≤ x ∧ x < 70) (hy : 0 ≤ y ∧ y < 50) :
    ((update_universe g).rd y x = true ↔
        (g.rd y x = true ∧ (get_neighbors g x y = 2 ∨ get_neighbors g x y = 3))
          ∨ (g.rd y x = false ∧ get_neighbors g x y = 3))
      ∧ update_universe g = step_simultaneous g := by
  constructor
  · rw [rd_update_universe g y x ((inBounds_iff y x).2 ⟨hy, hx⟩), conway_rule_iff]
  · apply Grid.ext_rd
    intro i j hij
    rw [rd_update_universe g i j hij]
    unfold step_simultaneous
    rw [Grid.rd_ofFn _ hij]

/-- The statement of `update_universe_conway` at the grid with the three live
cells `(25, 20)`, `(26, 20)`, `(27, 20)` and the cell in column 26 of row 19. -/
theorem update_universe_conway_witness :
    ((update_universe (grid_of_cells [(25, 20), (26, 20), (27, 20)])).rd 19 26 = true ↔
        ((grid_of_cells [(25, 20), (26, 20), (27, 20)]).rd 19 26 = true
            ∧ (get_neighbors (grid_of_cells [(25, 20), (26, 20), (27, 20)]) 26 19 = 2
              ∨ get_neighbors (grid_of_cells [(25, 20), (26, 20), (27, 20)]) 26 19 = 3))
          ∨ ((grid_of_cells [(25, 20), (26, 20), (27, 20)]).rd 19 26 = false
            ∧ get_neighbors (grid_of_cells [(25, 20), (26, 20), (27, 20)]) 26 19 = 3))
      ∧ update_universe (grid_of_cells [(25, 20), (26, 20), (27, 20)])
          = step_simultaneous (grid_of_cells [(25, 20), (26, 20), (27, 20)]) :=
  update_universe_conway (grid_of_cells [(25, 20), (26, 20), (27, 20)]) 26 19
    (by decide) (by decide)

/-! ## Counting neighbours -/

theorem neighbour_offsets_eq : neighbour_offsets
    = [(-1, -1), (-1, 0), (-1, 1), (0, -1), (0, 1), (1, -1), (1, 0), (1, 1)] := by
  decide

theorem boolToInt_rd_out (g : Grid) {i j : Int}
    (h : ¬ ((0 ≤ i ∧ i < 50) ∧ (0 ≤ j ∧ j < 70))) : boolToInt (g.rd i j) = 0 := by
  rw [Grid.rd_of_not_inBounds g (fun hb => h ((inBounds_iff i j).1 hb))]
  rfl

/-- For a cell of the array, the guards of `get_neighbors` skip exactly the
positions outside the array, so the count is the sum over the eight adjacent
positions of the cells found there, a position outside the array adding
nothing. -/
theorem get_neighbors_eq_sum (g : Grid) (x y : Int)
    (hx : 0 ≤ x ∧ x < 70) (hy : 0 ≤ y ∧ y < 50) :
    get_neighbors g x y
      = boolToInt (g.rd (y - 1) (x - 1)) + boolToInt (g.rd (y - 1) x)
        + boolToInt (g.rd (y - 1) (x + 1)) + boolToInt (g.rd y (x + 1))
        + boolToInt (g.rd (y + 1) (x + 1)) + boolToInt (g.rd (y + 1) x)
        + boolToInt (g.rd (y + 1) (x - 1)) + boolToInt (g.rd y (x - 1)) := by
  have c1 : (x + 1 < ((universe_width : Nat) : Int)) ↔ x < 69 := by
    simp only [universe_width, extra_space]; push_cast; omega
  have c2 : (x < ((universe_width : Nat) : Int) - 1) ↔ x < 69 := by
    simp only [universe_width, extra_space]; push_cast; omega
  have c3 : (y + 1 < ((universe_height : Nat) : Int)) ↔ y < 49 := by
    simp only [universe_height, extra_space]; push_cast; omega
  have c4 : (y < ((universe_height : Nat) : Int) - 1) ↔ y < 49 := by
    simp only [universe_height, extra_space]; push_cast; omega
  have t1 : ¬ x > 0 → ∀ i, boolToInt (g.rd i (x - 1)) = 0 :=
    fun h i => boolToInt_rd_out g (by omega)
  have t2 : ¬ x < 69 → ∀ i, boolToInt (g.rd i (x + 1)) = 0 :=
    fun h i => boolToInt_rd_out g (by omega)
  have t3 : ¬ y > 0 → ∀ j, boolToInt (g.rd (y - 1) j) = 0 :=
    fun h j => boolToInt_rd_out g (by omega)
  have t4 : ¬ y < 49 → ∀ j, boolToInt (g.rd (y + 1) j) = 0 :=
    fun h j => boolToInt_rd_out g (by omega)
  unfold get_neighbors
  simp only [c1, c2, c3, c4]
  by_cases hx0 : x > 0 <;> by_cases hx1 : x < 69 <;> by_cases hy0 : y > 0 <;>
    by_cases hy1 : y < 49 <;>
    simp only [hx0, hx1, hy0, hy1, if_true, if_false, zero_add]
  all_goals try simp only [t1 hx0]
  all_goals try simp only [t2 hx1]
  all_goals try simp only [t3 hy0]
  all_goals try simp only [t4 hy1]
  all_goals ring

theorem count_live_neighbours_eq_sum (g : Grid) (x y : Int) :
    (count_live_neighbours g x y : Int)
      = boolToInt (g.rd (y - 1) (x - 1)) + boolToInt (g.rd (y - 1) x)
        + boolToInt (g.rd (y - 1) (x + 1)) + boolToInt (g.rd y (x + 1))
        + boolToInt (g.rd (y + 1) (x + 1)) + boolToInt (g.rd (y + 1) x)
        + boolToInt (g.rd (y + 1) (x - 1)) + boolToInt (g.rd y (x - 1)) := by
  have term : ∀ i j : Int,
      (if (decide ((0 ≤ j ∧ j < 70) ∧ (0 ≤ i ∧ i < 50)) && g.rd i j) = true then (1 : Int) else 0)
        = boolToInt (g.rd i j) := by
    intro i j
    by_cases h : (0 ≤ i ∧ i < 50) ∧ (0 ≤ j ∧ j < 70)
    · have h2 : (0 ≤ j ∧ j < 70) ∧ (0 ≤ i ∧ i < 50) := ⟨h.2, h.1⟩
      cases hb : g.rd i j <;> simp [h2, boolToInt]
    · rw [boolToInt_rd_out g h, Grid.rd_of_not_inBounds g (fun hb => h ((inBounds_iff i j).1 hb))]
      simp
  unfold count_live_neighbours
  rw [neighbour_offsets_eq]
  simp only [List.countP_cons, List.countP_nil]
  have e1 : x + -1 = x - 1 := by ring
  have e2 : y + -1 = y - 1 := by ring
  simp only [e1, e2, add_zero]
  push_cast
  simp only [term]
  ring

/-- Claim C2.  For every grid and every cell `(x, y)` of the array,
`get_neighbors` returns the number of offsets `(dx, dy)` other than `(0, 0)`,
drawn from `{-1, 0, 1}`, with `(x + dx, y + dy)` inside the grid and the cell
there alive: positions outside the grid are not counted.  For an interior cell
it is the sum of all eight surrounding cells, and nothing wraps around: the
count for a cell of column 0 does not depend on any cell of column 69. -/
theorem get_neighbors_counts (g : Grid) (x y : Int)
    (hx : 0 ≤ x ∧ x < 70) (hy : 0 ≤ y ∧ y < 50) :
    get_neighbors g x y = (count_live_neighbours g x y : Int)
      ∧ (0 < x → x < 69 → 0 < y → y < 49 →
          get_neighbors g x y
            = boolToInt (g.rd (y - 1) (x - 1)) + boolToInt (g.rd (y - 1) x)
              + boolToInt (g.rd (y - 1) (x + 1)) + boolToInt (g.rd y (x + 1))
              + boolToInt (g.rd (y + 1) (x + 1)) + boolToInt (g.rd (y + 1) x)
              + boolToInt (g.rd (y + 1) (x - 1)) + boolToInt (g.rd y (x - 1)))
      ∧ (x = 0 → ∀ (r : Int) (v : Bool),
          get_neighbors (g.wr r 69 v) x y = get_neighbors g x y) := by
  refine ⟨?_, ?_, ?_⟩
  · rw [get_neighbors_eq_sum g x y hx hy, count_live_neighbours_eq_sum]
  · intro _ _ _ _
    exact get_neighbors_eq_sum g x y hx hy
  · intro h0 r v
    subst h0
    rw [get_neighbors_eq_sum _ 0 y hx hy, get_neighbors_eq_sum _ 0 y hx hy]
    have hne : ∀ (i j : Int), j ≠ 69 → (g.wr r 69 v).rd i j = g.rd i j := by
      intro i j hj
      rw [Grid.rd_wr, if_neg]
      rintro ⟨-, -, h⟩
      exact hj h
    have h1 : ∀ i, (g.wr r 69 v).rd i (0 - 1) = g.rd i (0 - 1) := fun i => hne i _ (by omega)
    have h2 : ∀ i, (g.wr r 69 v).rd i 0 = g.rd i 0 := fun i => hne i _ (by omega)
    have h3 : ∀ i, (g.wr r 69 v).rd i (0 + 1) = g.rd i (0 + 1) := fun i => hne i _ (by omega)
    simp only [h1, h2, h3]

/-- The statement of `get_neighbors_counts` at the grid with the three live
cells `(25, 20)`, `(26, 20)`, `(27, 20)` and the interior cell `(26, 19)`. -/
theorem get_neighbors_counts_witness :
    get_neighbors (grid_of_cells [(25, 20), (26, 20), (27, 20)]) 26 19
        = (count_live_neighbours (grid_of_cells [(25, 20), (26, 20), (27, 20)]) 26 19 : Int)
      ∧ get_neighbors (grid_of_cells [(25, 20), (26, 20), (27, 20)]) 26 19
        = boolToInt ((grid_of_cells [(25, 20), (26, 20), (27, 20)]).rd (19 - 1) (26 - 1))
          + boolToInt ((grid_of_cells [(25, 20), (26, 20), (27, 20)]).rd (19 - 1) 26)
          + boolToInt ((grid_of_cells [(25, 20), (26, 20), (27, 20)]).rd (19 - 1) (26 + 1))
          + boolToInt ((grid_of_cells [(25, 20), (26, 20), (27, 20)]).rd 19 (26 + 1))
          + boolToInt ((grid_of_cells [(25, 20), (26, 20), (27, 20)]).rd (19 + 1) (26 + 1))
          + boolToInt ((grid_of_cells [(25, 20), (26, 20), (27, 20)]).rd (19 + 1) 26)
          + boolToInt ((grid_of_cells [(25, 20), (26, 20), (27, 20)]).rd (19 + 1) (26 - 1))
          + boolToInt ((grid_of_cells [(25, 20), (26, 20), (27, 20)]).rd 19 (26 - 1)) :=
  have h := get_neighbors_counts (grid_of_cells [(25, 20), (26, 20), (27, 20)]) 26 19
    (by decide) (by decide)
  ⟨h.1, h.2.1 (by decide) (by decide) (by decide) (by decide)⟩

/-! ## Small patterns: blinker and block -/

/-- The cells of `grid_of_cells cells`, when every listed cell lies in the array. -/
theorem rd_grid_of_cells (cells : List (Int × Int)) (hin : ∀ c ∈ cells, InBounds c.2 c.1)
    (i j : Int) : (grid_of_cells cells).rd i j = decide ((j, i) ∈ cells) := by
  by_cases h : InBounds i j
  · unfold grid_of_cells
    rw [Grid.rd_ofFn _ h]
  · rw [Grid.rd_of_not_inBounds _ h]
    symm
    apply decide_eq_false
    intro hm
    exact h (hin _ hm)

theorem mem_far (base : List (Int × Int))
    (hbase : ∀ c ∈ base, (-1 ≤ c.1 ∧ c.1 ≤ 1) ∧ (-1 ≤ c.2 ∧ c.2 ≤ 1)) (dx dy : Int)
    (far : dx < -1 ∨ 1 < dx ∨ dy < -1 ∨ 1 < dy) : decide ((dx, dy) ∈ base) = false := by
  apply decide_eq_false
  intro hm
  have := hbase _ hm
  simp only at this
  omega

theorem pattern_rule_far (base : List (Int × Int))
    (hbase : ∀ c ∈ base, (-1 ≤ c.1 ∧ c.1 ≤ 1) ∧ (-1 ≤ c.2 ∧ c.2 ≤ 1)) (dx dy : Int)
    (far : dx < -2 ∨ 2 < dx ∨ dy < -2 ∨ 2 < dy) : pattern_rule base dx dy = false := by
  unfold pattern_rule
  rw [mem_far base hbase dx dy (by omega), mem_far base hbase (dx - 1) (dy - 1) (by omega),
    mem_far base hbase dx (dy - 1) (by omega), mem_far base hbase (dx + 1) (dy - 1) (by omega),
    mem_far base hbase (dx + 1) dy (by omega), mem_far base hbase (dx + 1) (dy + 1) (by omega),
    mem_far base hbase dx (dy + 1) (by omega), mem_far base hbase (dx - 1) (dy + 1) (by omega),
    mem_far base hbase (dx - 1) dy (by omega)]
  rfl

/-- A generation step on a pattern placed at `(cx, cy)`: when the rule, computed
on offsets, turns the offsets `base` into `base'`, the step turns the grid with
live cells `cells` into the grid with live cells `cells'`. -/
theorem pattern_step (cells cells' base base' : List (Int × Int)) (cx cy : Int)
    (hc : ∀ a b, (a, b) ∈ cells ↔ (a - cx, b - cy) ∈ base)
    (hc' : ∀ a b, (a, b) ∈ cells' ↔ (a - cx, b - cy) ∈ base')
    (hin : ∀ c ∈ cells, InBounds c.2 c.1)
    (hrule : ∀ dx dy, pattern_rule base dx dy = decide ((dx, dy) ∈ base')) :
    update_universe (grid_of_cells cells) = grid_of_cells cells' := by
  apply Grid.ext_rd
  intro i j hij
  have hb := (inBounds_iff i j).1 hij
  rw [rd_update_universe _ i j hij, get_neighbors_eq_sum _ j i hb.2 hb.1]
  simp only [rd_grid_of_cells cells hin]
  unfold grid_of_cells
  rw [Grid.rd_ofFn _ hij]
  have hm : ∀ a b a' b', a' = a - cx → b' = b - cy →
      decide ((a, b) ∈ cells) = decide ((a', b') ∈ base) := by
    intro a b a' b' ha hb
    subst ha hb
    exact decide_eq_decide.2 (hc a b)
  rw [hm j i (j - cx) (i - cy) rfl rfl,
    hm (j - 1) (i - 1) (j - cx - 1) (i - cy - 1) (by ring) (by ring),
    hm j (i - 1) (j - cx) (i - cy - 1) (by ring) (by ring),
    hm (j + 1) (i - 1) (j - cx + 1) (i - cy - 1) (by ring) (by ring),
    hm (j + 1) i (j - cx + 1) (i - cy) (by ring) (by ring),
    hm (j + 1) (i + 1) (j - cx + 1) (i - cy + 1) (by ring) (by ring),
    hm j (i + 1) (j - cx) (i - cy + 1) (by ring) (by ring),
    hm (j - 1) (i + 1) (j - cx - 1) (i - cy + 1) (by ring) (by ring),
    hm (j - 1) i (j - cx - 1) (i - cy) (by ring) (by ring)]
  have := hrule (j - cx) (i - cy)
  unfold pattern_rule at this
  rw [this]
  exact decide_eq_decide.2 (hc' j i).symm

theorem pattern_rule_near (base base' : List (Int × Int))
    (hbase : ∀ c ∈ base, (-1 ≤ c.1 ∧ c.1 ≤ 1) ∧ (-1 ≤ c.2 ∧ c.2 ≤ 1))
    (hbase' : ∀ c ∈ base', (-1 ≤ c.1 ∧ c.1 ≤ 1) ∧ (-1 ≤ c.2 ∧ c.2 ≤ 1))
    (hnear : ∀ dx ∈ [-2, -1, 0, 1, (2 : Int)], ∀ dy ∈ [-2, -1, 0, 1, (2 : Int)],
      pattern_rule base dx dy = decide ((dx, dy) ∈ base'))
    (dx dy : Int) : pattern_rule base dx dy = decide ((dx, dy) ∈ base') := by
  by_cases far : dx < -2 ∨ 2 < dx ∨ dy < -2 ∨ 2 < dy
  · rw [pattern_rule_far base hbase dx dy far, mem_far base' hbase' dx dy (by omega)]
  · apply hnear
    · have h1 : -2 ≤ dx := by omega
      have h2 : dx ≤ 2 := by omega
      interval_cases dx <;> simp
    · have h1 : -2 ≤ dy := by omega
      have h2 : dy ≤ 2 := by omega
      interval_cases dy <;> simp

theorem blinker_h_rule (dx dy : Int) :
    pattern_rule [(-1, 0), (0, 0), (1, 0)] dx dy = decide ((dx, dy) ∈ [(0, -1), (0, 0), (0, (1 : Int))]) :=
  pattern_rule_near _ _ (by decide) (by decide) (by decide) dx dy

theorem blinker_v_rule (dx dy : Int) :
    pattern_rule [(0, -1), (0, 0), (0, 1)] dx dy = decide ((dx, dy) ∈ [(-1, 0), (0, 0), ((1 : Int), (0 : Int))]) :=
  pattern_rule_near _ _ (by decide) (by decide) (by decide) dx dy

theorem block_rule (dx dy : Int) :
    pattern_rule [(0, 0), (1, 0), (0, 1), (1, 1)] dx dy
      = decide ((dx, dy) ∈ [(0, 0), (1, 0), (0, 1), ((1 : Int), (1 : Int))]) :=
  pattern_rule_near _ _ (by decide) (by decide) (by decide) dx dy

/-- After `init_universe` every cell is dead, whatever the array held. -/
theorem init_universe_eq (g : Grid) : init_universe g = Grid.dead := by
  apply Grid.ext_rd
  intro i j hij
  unfold init_universe
  have h := rd_gridLoop (fun _ _ _ => false) universe_height universe_width g i j
  rw [h, if_pos ⟨hij, hij.1.2, hij.2.2⟩, Grid.rd_dead]

theorem blinker_start_eq (g0 : Grid) (cx cy : Int)
    (_hx : 1 ≤ cx ∧ cx ≤ 68) (_hy : 1 ≤ cy ∧ cy ≤ 48) :
    blinker_start g0 cx cy = grid_of_cells [(cx - 1, cy), (cx, cy), (cx + 1, cy)] := by
  apply Grid.ext_rd
  intro i j hij
  unfold blinker_start update_cell grid_of_cells
  rw [Grid.rd_ofFn _ hij, init_universe_eq]
  simp only [Grid.rd_wr, Grid.rd_dead, hij, true_and, List.mem_cons, Prod.mk.injEq,
    List.mem_singleton, List.not_mem_nil, or_false]
  by_cases h1 : i = cy <;> by_cases h2 : j = cx - 1 <;> by_cases h3 : j = cx <;>
    by_cases h4 : j = cx + 1 <;> simp [h1, h2, h3, h4] <;> omega

/-- Claim C3.  Blinker, period 2: for every centre `(cx, cy)` with
`1 ≤ cx ≤ 68` and `1 ≤ cy ≤ 48`, from the grid made by `init_universe` and
`update_cell` at `(cx - 1, cy)`, `(cx, cy)`, `(cx + 1, cy)`, one
`update_universe` gives the grid whose only live cells are `(cx, cy - 1)`,
`(cx, cy)`, `(cx, cy + 1)`, a second one gives the start grid again (the
horizontal three cells), and so every even number of steps gives the start grid
and every odd number the vertical one. -/
theorem blinker_period_two (g0 : Grid) (cx cy : Int)
    (hx : 1 ≤ cx ∧ cx ≤ 68) (hy : 1 ≤ cy ∧ cy ≤ 48) :
    update_universe (blinker_start g0 cx cy)
        = grid_of_cells [(cx, cy - 1), (cx, cy), (cx, cy + 1)]
      ∧ update_universe (update_universe (blinker_start g0 cx cy)) = blinker_start g0 cx cy
      ∧ blinker_start g0 cx cy = grid_of_cells [(cx - 1, cy), (cx, cy), (cx + 1, cy)]
      ∧ ∀ n : Nat,
          update_universe^[2 * n] (blinker_start g0 cx cy) = blinker_start g0 cx cy
          ∧ update_universe^[2 * n + 1] (blinker_start g0 cx cy)
              = grid_of_cells [(cx, cy - 1), (cx, cy), (cx, cy + 1)] := by
  have hH : update_universe (grid_of_cells [(cx - 1, cy), (cx, cy), (cx + 1, cy)])
      = grid_of_cells [(cx, cy - 1), (cx, cy), (cx, cy + 1)] := by
    apply pattern_step _ _ [(-1, 0), (0, 0), (1, 0)] [(0, -1), (0, 0), (0, 1)] cx cy
    · intro a b
      simp only [List.mem_cons, Prod.mk.injEq, List.mem_singleton, List.not_mem_nil, or_false]
      omega
    · intro a b
      simp only [List.mem_cons, Prod.mk.injEq, List.mem_singleton, List.not_mem_nil, or_false]
      omega
    · intro c hc
      rw [inBounds_iff]
      simp only [List.mem_cons, List.mem_singleton, List.not_mem_nil, or_false] at hc
      rcases hc with rfl | rfl | rfl <;> simp only <;> omega
    · exact blinker_h_rule
  have hV : update_universe (grid_of_cells [(cx, cy - 1), (cx, cy), (cx, cy + 1)])
      = grid_of_cells [(cx - 1, cy), (cx, cy), (cx + 1, cy)] := by
    apply pattern_step _ _ [(0, -1), (0, 0), (0, 1)] [(-1, 0), (0, 0), (1, 0)] cx cy
    · intro a b
      simp only [List.mem_cons, Prod.mk.injEq, List.mem_singleton, List.not_mem_nil, or_false]
      omega
    · intro a b
      simp only [List.mem_cons, Prod.mk.injEq, List.mem_singleton, List.not_mem_nil, or_false]
      omega
    · intro c hc
      rw [inBounds_iff]
      simp only [List.mem_cons, List.mem_singleton, List.not_mem_nil, or_false] at hc
      rcases hc with rfl | rfl | rfl <;> simp only <;> omega
    · exact blinker_v_rule
  have h1 : update_universe (blinker_start g0 cx cy)
      = grid_of_cells [(cx, cy - 1), (cx, cy), (cx, cy + 1)] := by
    rw [blinker_start_eq g0 cx cy hx hy, hH]
  have h2 : update_universe (update_universe (blinker_start g0 cx cy))
      = blinker_start g0 cx cy := by
    rw [h1, hV, blinker_start_eq g0 cx cy hx hy]
  refine ⟨h1, h2, blinker_start_eq g0 cx cy hx hy, ?_⟩
  intro n
  have even : update_universe^[2 * n] (blinker_start g0 cx cy) = blinker_start g0 cx cy := by
    induction n with
    | zero => rfl
    | succ n ih =>
      rw [show 2 * (n + 1) = 2 * n + 1 + 1 by ring, Function.iterate_succ_apply',
        Function.iterate_succ_apply', ih, h2]
  refine ⟨even, ?_⟩
  rw [Function.iterate_succ_apply', even, h1]

/-- The statement of `blinker_period_two` at centre `(26, 20)`, starting from
the all-dead array: the horizontal cells `(25, 20)`, `(26, 20)`, `(27, 20)` become
the column `(26, 19)`, `(26, 20)`, `(26, 21)` and back. -/
theorem blinker_period_two_witness :
    update_universe (blinker_start Grid.dead 26 20)
        = grid_of_cells [(26, 19), (26, 20), (26, 21)]
      ∧ update_universe (update_universe (blinker_start Grid.dead 26 20))
        = blinker_start Grid.dead 26 20
      ∧ blinker_start Grid.dead 26 20 = grid_of_cells [(25, 20), (26, 20), (27, 20)]
      ∧ ∀ n : Nat,
          update_universe^[2 * n] (blinker_start Grid.dead 26 20) = blinker_start Grid.dead 26 20
          ∧ update_universe^[2 * n + 1] (blinker_start Grid.dead 26 20)
              = grid_of_cells [(26, 19), (26, 20), (26, 21)] :=
  blinker_period_two Grid.dead 26 20 (by decide) (by decide)

/-- Claim C4.  Block still life: for every `(x, y)` with `0 ≤ x ≤ 68` and
`0 ≤ y ≤ 48`, the grid whose only live cells are `(x, y)`, `(x + 1, y)`,
`(x, y + 1)`, `(x + 1, y + 1)` is unchanged by `update_universe`; the bounds
include the blocks that touch an edge or a corner of the grid. -/
theorem block_still_life (x y : Int) (hx : 0 ≤ x ∧ x ≤ 68) (hy : 0 ≤ y ∧ y ≤ 48) :
    update_universe (grid_of_cells [(x, y), (x + 1, y), (x, y + 1), (x + 1, y + 1)])
      = grid_of_cells [(x, y), (x + 1, y), (x, y + 1), (x + 1, y + 1)] := by
  apply pattern_step _ _ [(0, 0), (1, 0), (0, 1), (1, 1)] [(0, 0), (1, 0), (0, 1), (1, 1)] x y
  · intro a b
    simp only [List.mem_cons, Prod.mk.injEq, List.mem_singleton, List.not_mem_nil, or_false]
    omega
  · intro a b
    simp only [List.mem_cons, Prod.mk.injEq, List.mem_singleton, List.not_mem_nil, or_false]
    omega
  · intro c hc
    rw [inBounds_iff]
    simp only [List.mem_cons, List.mem_singleton, List.not_mem_nil, or_false] at hc
    rcases hc with rfl | rfl | rfl | rfl <;> simp only <;> omega
  · exact block_rule

/-- The statement of `block_still_life` at the block in the corner `(0, 0)`. -/
theorem block_still_life_witness :
    update_universe (grid_of_cells [(0, 0), (1, 0), (0, 1), (1, 1)])
      = grid_of_cells [(0, 0), (1, 0), (0, 1), (1, 1)] :=
  block_still_life 0 0 (by decide) (by decide)

/-! ## Clicks -/

theorem click_divisor_x :
    ((screen_width / (universe_width - 2 * extra_space) : Int) : ℚ) = 20 := by
  have h : (screen_width / (universe_width - 2 * extra_space) : Int) = 20 := by decide
  rw [h]
  norm_num

theorem click_divisor_y :
    ((screen_height / (universe_height - 2 * extra_space) : Int) : ℚ) = 20 := by
  have h : (screen_height / (universe_height - 2 * extra_space) : Int) = 20 := by decide
  rw [h]
  norm_num

theorem click_cell_x_eq (c : Vector2) : click_cell_x c = ⌊c.x / 20⌋ + 10 := by
  unfold click_cell_x
  rw [click_divisor_x]
  rfl

theorem click_cell_y_eq (c : Vector2) : click_cell_y c = ⌊c.y / 20⌋ + 10 := by
  unfold click_cell_y
  rw [click_divisor_y]
  rfl

/-- The cell index `⌊q / 20⌋ + 10` lies in `[lo, hi)` exactly when the pixel
coordinate `q` lies in `[20 * (lo - 10), 20 * (hi - 10))`. -/
theorem floor_div_twenty_bounds (q : ℚ) (lo hi : Int) :
    (lo ≤ ⌊q / 20⌋ + 10 ∧ ⌊q / 20⌋ + 10 < hi)
      ↔ ((20 * (lo - 10) : Int) : ℚ) ≤ q ∧ q < ((20 * (hi - 10) : Int) : ℚ) := by
  have h1 : lo ≤ ⌊q / 20⌋ + 10 ↔ ((20 * (lo - 10) : Int) : ℚ) ≤ q := by
    rw [← sub_le_iff_le_add, Int.le_floor, le_div_iff₀ (by norm_num : (0 : ℚ) < 20)]
    push_cast
    constructor <;> intro h <;> linarith
  have h2 : ⌊q / 20⌋ + 10 < hi ↔ q < ((20 * (hi - 10) : Int) : ℚ) := by
    rw [← lt_sub_iff_add_lt, Int.floor_lt, div_lt_iff₀ (by norm_num : (0 : ℚ) < 20)]
    push_cast
    constructor <;> intro h <;> linarith
  rw [h1, h2]

/-- Claim C5, as stated, fails.  The click at pixel `(1200, 0)` passes the only
test of the frame loop, `click_position.x >= 0`, and the indices computed for it
are not those of a cell: `cell_x` is 70. -/
theorem click_cells_not_clamped :
    (⟨1200, 0⟩ : Vector2).x ≥ 0
      ∧ click_cell_x ⟨1200, 0⟩ = 70
      ∧ ¬ ((0 ≤ click_cell_x ⟨1200, 0⟩ ∧ click_cell_x ⟨1200, 0⟩ < 70)
            ∧ (0 ≤ click_cell_y ⟨1200, 0⟩ ∧ click_cell_y ⟨1200, 0⟩ < 50)) := by
  have hx : click_cell_x ⟨1200, 0⟩ = 70 := by
    rw [click_cell_x_eq]
    norm_num
  refine ⟨by norm_num, hx, ?_⟩
  rw [hx]
  intro h
  exact absurd h.1.2 (by decide)

/-- Claim C5, amended.  For a click that passes the test of the frame loop
(`click_position.x >= 0`), the indices handed to `update_cell` are those of a
cell of the array exactly when the pixel position satisfies `x < 1200` and
`-200 ≤ y < 800`; in particular every click inside the 1000 by 600 window maps
to a cell with `10 ≤ cell_x < 60` and `10 ≤ cell_y < 40`. -/
theorem click_cells_in_bounds_iff (c : Vector2) (hx : c.x ≥ 0) :
    (((0 ≤ click_cell_x c ∧ click_cell_x c < 70) ∧ (0 ≤ click_cell_y c ∧ click_cell_y c < 50))
        ↔ (c.x < 1200 ∧ -200 ≤ c.y ∧ c.y < 800))
      ∧ (c.x < 1000 → 0 ≤ c.y → c.y < 600 →
          (10 ≤ click_cell_x c ∧ click_cell_x c < 60)
            ∧ (10 ≤ click_cell_y c ∧ click_cell_y c < 40)) := by
  rw [click_cell_x_eq, click_cell_y_eq]
  constructor
  · rw [floor_div_twenty_bounds, floor_div_twenty_bounds]
    norm_num
    intro _ _ _
    linarith
  · intro h1 h2 h3
    rw [floor_div_twenty_bounds, floor_div_twenty_bounds]
    norm_num
    exact ⟨⟨hx, h1⟩, h2, h3⟩

/-- The statement of `click_cells_in_bounds_iff` at the click at pixel
`(999, 599)`, the last pixel of the window. -/
theorem click_cells_in_bounds_iff_witness :
    (⟨999, 599⟩ : Vector2).x ≥ 0
      ∧ (((0 ≤ click_cell_x ⟨999, 599⟩ ∧ click_cell_x ⟨999, 599⟩ < 70)
            ∧ (0 ≤ click_cell_y ⟨999, 599⟩ ∧ click_cell_y ⟨999, 599⟩ < 50))
          ↔ ((⟨999, 599⟩ : Vector2).x < 1200 ∧ -200 ≤ (⟨999, 599⟩ : Vector2).y
              ∧ (⟨999, 599⟩ : Vector2).y < 800))
      ∧ ((10 ≤ click_cell_x ⟨999, 599⟩ ∧ click_cell_x ⟨999, 599⟩ < 60)
          ∧ (10 ≤ click_cell_y ⟨999, 599⟩ ∧ click_cell_y ⟨999, 599⟩ < 40)) :=
  have h := click_cells_in_bounds_iff ⟨999, 599⟩ (by norm_num)
  ⟨by norm_num, h.1, h.2 (by norm_num) (by norm_num) (by norm_num)⟩

/-! ## Toggling a cell -/

/-- Claim C6.  For every grid and every `(x, y)` with `0 ≤ x < 70` and
`0 ≤ y < 50`, `update_cell` at `(x, y)` negates the cell in row `y`, column `x`
and leaves every other cell as it was. -/
theorem update_cell_toggles (g : Grid) (x y : Int)
    (hx : 0 ≤ x ∧ x < 70) (hy : 0 ≤ y ∧ y < 50) :
    (update_cell g x y).rd y x = !(g.rd y x)
      ∧ ∀ i j : Int, ¬ (i = y ∧ j = x) → (update_cell g x y).rd i j = g.rd i j := by
  have hb : InBounds y x := (inBounds_iff y x).2 ⟨hy, hx⟩
  unfold update_cell
  constructor
  · rw [Grid.rd_wr, if_pos ⟨hb, rfl, rfl⟩]
    cases g.rd y x <;> rfl
  · intro i j hne
    rw [Grid.rd_wr, if_neg]
    rintro ⟨-, h1, h2⟩
    exact hne ⟨h1, h2⟩

/-- The statement of `update_cell_toggles` at the grid with the three live cells
`(25, 20)`, `(26, 20)`, `(27, 20)` and the toggle at `(3, 4)`: column 3 of
row 4. -/
theorem update_cell_toggles_witness :
    (update_cell (grid_of_cells [(25, 20), (26, 20), (27, 20)]) 3 4).rd 4 3
        = !((grid_of_cells [(25, 20), (26, 20), (27, 20)]).rd 4 3)
      ∧ ∀ i j : Int, ¬ (i = 4 ∧ j = 3) →
          (update_cell (grid_of_cells [(25, 20), (26, 20), (27, 20)]) 3 4).rd i j
            = (grid_of_cells [(25, 20), (26, 20), (27, 20)]).rd i j :=
  update_cell_toggles (grid_of_cells [(25, 20), (26, 20), (27, 20)]) 3 4
    (by decide) (by decide)

/-- Claim C7.  `update_cell` is an involution: for every grid and every
`(x, y)` with `0 ≤ x < 70` and `0 ≤ y < 50`, two calls at `(x, y)` give back the
grid they started from. -/
theorem update_cell_involution (g : Grid) (x y : Int)
    (hx : 0 ≤ x ∧ x < 70) (hy : 0 ≤ y ∧ y < 50) :
    update_cell (update_cell g x y) x y = g := by
  have hb : InBounds y x := (inBounds_iff y x).2 ⟨hy, hx⟩
  have once : ∀ (u : Grid) (i j : Int), (update_cell u x y).rd i j
      = if i = y ∧ j = x then !(u.rd y x) else u.rd i j := by
    intro u i j
    unfold update_cell
    rw [Grid.rd_wr]
    by_cases h : i = y ∧ j = x
    · have hc : InBounds i j ∧ i = y ∧ j = x := ⟨by rw [h.1, h.2]; exact hb, h⟩
      rw [if_pos hc, if_pos h]
      cases u.rd y x <;> rfl
    · have hc : ¬ (InBounds i j ∧ i = y ∧ j = x) := fun hc => h hc.2
      rw [if_neg hc, if_neg h]
  apply Grid.ext_rd
  intro i j _
  simp only [once]
  by_cases h : i = y ∧ j = x
  · simp only [h, and_self, if_true, Bool.not_not]
  · simp only [h, if_false]

/-- The statement of `update_cell_involution` at the grid with the block
`(0, 0)`, `(1, 0)`, `(0, 1)`, `(1, 1)` and the corner cell `(69, 49)`. -/
theorem update_cell_involution_witness :
    update_cell (update_cell (grid_of_cells [(0, 0), (1, 0), (0, 1), (1, 1)]) 69 49) 69 49
      = grid_of_cells [(0, 0), (1, 0), (0, 1), (1, 1)] :=
  update_cell_involution (grid_of_cells [(0, 0), (1, 0), (0, 1), (1, 1)]) 69 49
    (by decide) (by decide)

/-! ## Key presses: tempo -/

/-- The tempo after the `switch`: only the two tempo keys change it. -/
theorem switch_tempo (key_pressed : Int) (s : Globals) :
    (process_keypress_switch key_pressed s).universe_tempo
      = if key_pressed = KEY_MINUS then s.universe_tempo + 0.02
        else if key_pressed = KEY_EQUAL then
          (if s.universe_tempo - 0.02 ≥ 0.02 then s.universe_tempo - 0.02 else s.universe_tempo)
        else s.universe_tempo := by
  unfold process_keypress_switch set_font_theme
  simp only [apply_ite Globals.universe_tempo]
  by_cases h1 : key_pressed = KEY_SPACE
  · have h2 : key_pressed ≠ KEY_MINUS := by rw [h1]; decide
    have h3 : key_pressed ≠ KEY_EQUAL := by rw [h1]; decide
    rw [if_pos h1, if_neg h2, if_neg h3]
  · rw [if_neg h1]
    by_cases h2 : key_pressed = KEY_MINUS
    · rw [if_pos h2, if_pos h2]
    · rw [if_neg h2, if_neg h2]
      by_cases h3 : key_pressed = KEY_EQUAL
      · rw [if_pos h3, if_pos h3]
      · rw [if_neg h3, if_neg h3]
        simp only [ite_self]

/-- The `switch` never touches the key-repeat timer. -/
theorem switch_key_press_timer (key_pressed : Int) (s : Globals) :
    (process_keypress_switch key_pressed s).key_press_timer = s.key_press_timer := by
  unfold process_keypress_switch set_font_theme
  simp only [apply_ite Globals.key_press_timer, ite_self]

/-- The key-repeat block changes at most the tempo and the key-repeat timer. -/
theorem repeat_frame (IsKeyDown : Int → Bool) (s : Globals) :
    ∃ t k : ℚ, process_keypress_repeat IsKeyDown s
      = { s with universe_tempo := t, key_press_timer := k } := by
  unfold process_keypress_repeat
  by_cases h : s.key_press_timer ≥ key_press_cooldown
  · rw [if_pos h]
    cases IsKeyDown KEY_MINUS <;> cases IsKeyDown KEY_EQUAL <;>
      simp only [if_true, if_false, Bool.false_eq_true] <;>
      first
        | exact ⟨_, _, rfl⟩
        | (split_ifs <;> exact ⟨_, _, rfl⟩)
  · rw [if_neg h]
    exact ⟨_, _, rfl⟩

/-- The tempo after the key-repeat block. -/
theorem repeat_tempo (IsKeyDown : Int → Bool) (s : Globals) :
    (process_keypress_repeat IsKeyDown s).universe_tempo
      = if s.key_press_timer ≥ key_press_cooldown then
          (if (if IsKeyDown KEY_MINUS then s.universe_tempo + 0.02 else s.universe_tempo) - 0.02
                ≥ 0.02 ∧ IsKeyDown KEY_EQUAL then
            (if IsKeyDown KEY_MINUS then s.universe_tempo + 0.02 else s.universe_tempo) - 0.02
          else (if IsKeyDown KEY_MINUS then s.universe_tempo + 0.02 else s.universe_tempo))
        else s.universe_tempo := by
  unfold process_keypress_repeat
  by_cases h : s.key_press_timer ≥ key_press_cooldown
  · rw [if_pos h, if_pos h]
    cases h1 : IsKeyDown KEY_MINUS <;> cases h2 : IsKeyDown KEY_EQUAL <;> simp <;>
      split_ifs <;> rfl
  · rw [if_neg h, if_neg h]

/-- The key-repeat block does nothing to the tempo when the timer is below the
cooldown or neither tempo key is held. -/
theorem repeat_tempo_idle (IsKeyDown : Int → Bool) (s : Globals)
    (h : s.key_press_timer < key_press_cooldown
      ∨ (IsKeyDown KEY_MINUS = false ∧ IsKeyDown KEY_EQUAL = false)) :
    (process_keypress_repeat IsKeyDown s).universe_tempo = s.universe_tempo := by
  rw [repeat_tempo]
  rcases h with h | ⟨h1, h2⟩
  · rw [if_neg (not_le.2 h)]
  · rw [h1, h2]
    simp

theorem switch_tempo_floor (key_pressed : Int) (s : Globals) (h : 0.02 ≤ s.universe_tempo) :
    0.02 ≤ (process_keypress_switch key_pressed s).universe_tempo := by
  rw [switch_tempo]
  split_ifs <;> first | exact h | linarith

theorem repeat_tempo_floor (IsKeyDown : Int → Bool) (s : Globals)
    (h : 0.02 ≤ s.universe_tempo) :
    0.02 ≤ (process_keypress_repeat IsKeyDown s).universe_tempo := by
  rw [repeat_tempo]
  split_ifs <;> first | exact h | linarith

/-- One call of `process_keypress` keeps the tempo at or above the floor. -/
theorem process_keypress_tempo_floor (IsKeyDown : Int → Bool) (key_pressed : Int)
    (s : Globals) (h : 0.02 ≤ s.universe_tempo) :
    0.02 ≤ (process_keypress IsKeyDown key_pressed s).universe_tempo :=
  repeat_tempo_floor _ _ (switch_tempo_floor _ _ h)

theorem process_keypress_seq_tempo_floor (frames : List KeyFrame) (s : Globals)
    (h : 0.02 ≤ s.universe_tempo) :
    0.02 ≤ (process_keypress_seq frames s).universe_tempo := by
  unfold process_keypress_seq
  induction frames generalizing s with
  | nil => exact h
  | cons f fs ih =>
    rw [List.foldl_cons]
    apply ih
    exact process_keypress_tempo_floor _ _ _ h

/-- Claim C8.  Tempo floor invariant: the tempo starts at 0.2, and after every
call in every finite sequence of calls to `process_keypress`, whatever the
pressed keys, the held keys and the key-repeat timer values, the tempo is at
least 0.02. -/
theorem tempo_floor_invariant (frames : List KeyFrame) (n : Nat) :
    Globals.initial.universe_tempo = 0.2
      ∧ 0.02 ≤ (process_keypress_seq (frames.take n) Globals.initial).universe_tempo := by
  refine ⟨rfl, ?_⟩
  apply process_keypress_seq_tempo_floor
  show (0.02 : ℚ) ≤ 0.2
  norm_num

/-- Claim C9, as stated, fails.  At tempo 0.03, with the key-repeat timer below
the cooldown, one press of the decrement key leaves the tempo at 0.03, while
`max (0.03 - 0.02) 0.02` is 0.02. -/
theorem tempo_decrement_not_clamp :
    (0.02 : ℚ) ≤ 0.03
      ∧ ({ Globals.initial with universe_tempo := 0.03 } : Globals).key_press_timer
          < key_press_cooldown
      ∧ (process_keypress (fun _ => false) KEY_EQUAL
            { Globals.initial with universe_tempo := 0.03 }).universe_tempo = 0.03
      ∧ (process_keypress (fun _ => false) KEY_EQUAL
            { Globals.initial with universe_tempo := 0.03 }).universe_tempo
          ≠ max (0.03 - 0.02) 0.02 := by
  have hidle : ({ Globals.initial with universe_tempo := 0.03 } : Globals).key_press_timer
      < key_press_cooldown := by
    show (0.0 : ℚ) < 0.12
    norm_num
  have hval : (process_keypress (fun _ => false) KEY_EQUAL
      { Globals.initial with universe_tempo := 0.03 }).universe_tempo = 0.03 := by
    unfold process_keypress
    rw [repeat_tempo_idle _ _ (Or.inr ⟨rfl, rfl⟩), switch_tempo,
      if_neg (by decide), if_pos rfl]
    show (if (0.03 : ℚ) - 0.02 ≥ 0.02 then (0.03 : ℚ) - 0.02 else 0.03) = 0.03
    norm_num
  refine ⟨by norm_num, hidle, hval, ?_⟩
  rw [hval]
  norm_num

/-- Claim C9, amended.  With the repeat path not firing (timer below the
cooldown, or neither tempo key held), one press of the decrement key
`KEY_EQUAL` sets the tempo to `t - 0.02` when `t - 0.02 ≥ 0.02` and leaves it
at `t` otherwise; so at `t = 0.02` it stays 0.02, and the result is
`max (t - 0.02) 0.02` whenever `t ≥ 0.04` or `t = 0.02`.  One press of the
increment key `KEY_MINUS` sets the tempo to `t + 0.02`, for every `t`. -/
theorem tempo_decrement_guarded (IsKeyDown : Int → Bool) (s : Globals)
    (hidle : s.key_press_timer < key_press_cooldown
      ∨ (IsKeyDown KEY_MINUS = false ∧ IsKeyDown KEY_EQUAL = false)) :
    (process_keypress IsKeyDown KEY_EQUAL s).universe_tempo
        = (if s.universe_tempo - 0.02 ≥ 0.02 then s.universe_tempo - 0.02
            else s.universe_tempo)
      ∧ (s.universe_tempo = 0.02 →
          (process_keypress IsKeyDown KEY_EQUAL s).universe_tempo = 0.02)
      ∧ (0.04 ≤ s.universe_tempo ∨ s.universe_tempo = 0.02 →
          (process_keypress IsKeyDown KEY_EQUAL s).universe_tempo
            = max (s.universe_tempo - 0.02) 0.02)
      ∧ (process_keypress IsKeyDown KEY_MINUS s).universe_tempo = s.universe_tempo + 0.02 := by
  have hidle' : ∀ k, (process_keypress_switch k s).key_press_timer < key_press_cooldown
      ∨ (IsKeyDown KEY_MINUS = false ∧ IsKeyDown KEY_EQUAL = false) := by
    intro k
    rw [switch_key_press_timer]
    exact hidle
  have hdec : (process_keypress IsKeyDown KEY_EQUAL s).universe_tempo
      = (if s.universe_tempo - 0.02 ≥ 0.02 then s.universe_tempo - 0.02
          else s.universe_tempo) := by
    unfold process_keypress
    rw [repeat_tempo_idle _ _ (hidle' _), switch_tempo, if_neg (by decide), if_pos rfl]
  have hinc : (process_keypress IsKeyDown KEY_MINUS s).universe_tempo
      = s.universe_tempo + 0.02 := by
    unfold process_keypress
    rw [repeat_tempo_idle _ _ (hidle' _), switch_tempo, if_pos rfl]
  refine ⟨hdec, ?_, ?_, hinc⟩
  · intro h
    rw [hdec, h]
    norm_num
  · intro h
    rw [hdec]
    rcases h with h | h
    · have h1 : s.universe_tempo - 0.02 ≥ 0.02 := by
        norm_num at h ⊢
        linarith
      rw [if_pos h1, max_eq_left h1]
    · rw [h]
      norm_num

/-- The statement of `tempo_decrement_guarded` at the start-up state (tempo
0.2, timer 0) with no key held: the decrement gives `0.2 - 0.02`, the increment
`0.2 + 0.02`. -/
theorem tempo_decrement_guarded_witness :
    (process_keypress (fun _ => false) KEY_EQUAL Globals.initial).universe_tempo
        = (if Globals.initial.universe_tempo - 0.02 ≥ 0.02
            then Globals.initial.universe_tempo - 0.02 else Globals.initial.universe_tempo)
      ∧ (process_keypress (fun _ => false) KEY_EQUAL Globals.initial).universe_tempo
        = max (Globals.initial.universe_tempo - 0.02) 0.02
      ∧ (process_keypress (fun _ => false) KEY_MINUS Globals.initial).universe_tempo
        = Globals.initial.universe_tempo + 0.02 :=
  have h := tempo_decrement_guarded (fun _ => false) Globals.initial (Or.inr ⟨rfl, rfl⟩)
  ⟨h.1, h.2.2.1 (Or.inl (by show (0.04 : ℚ) ≤ 0.2; norm_num)), h.2.2.2⟩

/-! ## Key presses: colour themes -/

theorem repeat_colors (IsKeyDown : Int → Bool) (s : Globals) :
    (process_keypress_repeat IsKeyDown s).inactive_cell_color = s.inactive_cell_color
      ∧ (process_keypress_repeat IsKeyDown s).active_cell_color = s.active_cell_color
      ∧ (process_keypress_repeat IsKeyDown s).strong_text_color = s.strong_text_color
      ∧ (process_keypress_repeat IsKeyDown s).weak_text_color = s.weak_text_color := by
  obtain ⟨t, k, h⟩ := repeat_frame IsKeyDown s
  rw [h]
  exact ⟨rfl, rfl, rfl, rfl⟩

/-- The theme after `process_keypress` is the theme the `switch` leaves. -/
theorem process_keypress_theme (IsKeyDown : Int → Bool) (key_pressed : Int) (s : Globals) :
    (process_keypress IsKeyDown key_pressed s).theme
      = (process_keypress_switch key_pressed s).theme := by
  unfold process_keypress Globals.theme
  obtain ⟨h1, h2, h3, h4⟩ := repeat_colors IsKeyDown (process_keypress_switch key_pressed s)
  rw [h1, h2, h3, h4]

/-- A digit key overwrites all four theme colours, so the theme it leaves is the
same from every state. -/
theorem switch_digit_theme (k : Nat) (hk : k < 10) (s : Globals) :
    (process_keypress_switch (KEY_ZERO + k) s).theme
      = (process_keypress_switch (KEY_ZERO + k) Globals.initial).theme := by
  interval_cases k <;> rfl

/-- Claim C10.  For every `k` in `0..9`, `process_keypress` with the key
`'0' + k` leaves a theme (dead-cell, alive-cell, strong text and weak text
colour) that is the same from every prior state and whatever keys are held; the
text colours are `(0,0,0,50)` and `(0,0,0,32)` for the presets 0, 2, 4, 6, 8, 9
and `(255,255,255,50)` and `(255,255,255,32)` for the presets 1, 3, 5, 7; both
cell colours have alpha 255. -/
theorem theme_preset_by_key (k : Nat) (hk : k < 10) (IsKeyDown₁ IsKeyDown₂ : Int → Bool)
    (s₁ s₂ : Globals) :
    (process_keypress IsKeyDown₁ (KEY_ZERO + k) s₁).theme
        = (process_keypress IsKeyDown₂ (KEY_ZERO + k) s₂).theme
      ∧ (k ∈ [0, 2, 4, 6, 8, 9] →
          (process_keypress IsKeyDown₁ (KEY_ZERO + k) s₁).strong_text_color = ⟨0, 0, 0, 50⟩
          ∧ (process_keypress IsKeyDown₁ (KEY_ZERO + k) s₁).weak_text_color = ⟨0, 0, 0, 32⟩)
      ∧ (k ∈ [1, 3, 5, 7] →
          (process_keypress IsKeyDown₁ (KEY_ZERO + k) s₁).strong_text_color
              = ⟨255, 255, 255, 50⟩
          ∧ (process_keypress IsKeyDown₁ (KEY_ZERO + k) s₁).weak_text_color
              = ⟨255, 255, 255, 32⟩)
      ∧ (process_keypress IsKeyDown₁ (KEY_ZERO + k) s₁).inactive_cell_color.a = 255
      ∧ (process_keypress IsKeyDown₁ (KEY_ZERO + k) s₁).active_cell_color.a = 255 := by
  have e1 := process_keypress_theme IsKeyDown₁ (KEY_ZERO + k) s₁
  have e2 := process_keypress_theme IsKeyDown₂ (KEY_ZERO + k) s₂
  rw [switch_digit_theme k hk] at e1 e2
  refine ⟨by rw [e1, e2], ?_⟩
  have h1 : (process_keypress IsKeyDown₁ (KEY_ZERO + k) s₁).inactive_cell_color
      = (process_keypress_switch (KEY_ZERO + k) Globals.initial).inactive_cell_color :=
    congrArg (fun t => t.1) e1
  have h2 : (process_keypress IsKeyDown₁ (KEY_ZERO + k) s₁).active_cell_color
      = (process_keypress_switch (KEY_ZERO + k) Globals.initial).active_cell_color :=
    congrArg (fun t => t.2.1) e1
  have h3 : (process_keypress IsKeyDown₁ (KEY_ZERO + k) s₁).strong_text_color
      = (process_keypress_switch (KEY_ZERO + k) Globals.initial).strong_text_color :=
    congrArg (fun t => t.2.2.1) e1
  have h4 : (process_keypress IsKeyDown₁ (KEY_ZERO + k) s₁).weak_text_color
      = (process_keypress_switch (KEY_ZERO + k) Globals.initial).weak_text_color :=
    congrArg (fun t => t.2.2.2) e1
  rw [h1, h2, h3, h4]
  interval_cases k <;> decide

/-- The statement of `theme_preset_by_key` at preset 9, once from the start-up
state with no key held and once from the state left by preset 1 with every key
held. -/
theorem theme_preset_by_key_witness :
    (process_keypress (fun _ => false) (KEY_ZERO + (9 : Nat)) Globals.initial).theme
        = (process_keypress (fun _ => true) (KEY_ZERO + (9 : Nat))
            (process_keypress (fun _ => false) KEY_ONE Globals.initial)).theme
      ∧ (process_keypress (fun _ => false) (KEY_ZERO + (9 : Nat))
            Globals.initial).strong_text_color = ⟨0, 0, 0, 50⟩
      ∧ (process_keypress (fun _ => false) (KEY_ZERO + (9 : Nat))
            Globals.initial).weak_text_color = ⟨0, 0, 0, 32⟩
      ∧ (process_keypress (fun _ => false) (KEY_ZERO + (9 : Nat))
            Globals.initial).inactive_cell_color.a = 255
      ∧ (process_keypress (fun _ => false) (KEY_ZERO + (9 : Nat))
            Globals.initial).active_cell_color.a = 255 :=
  have h := theme_preset_by_key 9 (by decide) (fun _ => false) (fun _ => true)
    Globals.initial (process_keypress (fun _ => false) KEY_ONE Globals.initial)
  ⟨h.1, (h.2.1 (by decide)).1, (h.2.1 (by decide)).2, h.2.2.2.1, h.2.2.2.2⟩

/-! ## Key presses: the running flag -/

theorem switch_is_simulating (key_pressed : Int) (s : Globals) :
    (process_keypress_switch key_pressed s).is_simulating
      = if key_pressed = KEY_SPACE then !s.is_simulating else s.is_simulating := by
  unfold process_keypress_switch set_font_theme
  simp only [apply_ite Globals.is_simulating]
  by_cases h1 : key_pressed = KEY_SPACE
  · rw [if_pos h1, if_pos h1]
    cases s.is_simulating <;> rfl
  · rw [if_neg h1, if_neg h1]
    simp only [ite_self]

theorem repeat_is_simulating (IsKeyDown : Int → Bool) (s : Globals) :
    (process_keypress_repeat IsKeyDown s).is_simulating = s.is_simulating := by
  obtain ⟨t, k, h⟩ := repeat_frame IsKeyDown s
  rw [h]

theorem process_keypress_is_simulating (IsKeyDown : Int → Bool) (key_pressed : Int)
    (s : Globals) :
    (process_keypress IsKeyDown key_pressed s).is_simulating
      = if key_pressed = KEY_SPACE then !s.is_simulating else s.is_simulating := by
  unfold process_keypress
  rw [repeat_is_simulating, switch_is_simulating]

/-- Claim C11.  Running-flag state machine: the flag starts `false` (paused);
`process_keypress` changes it exactly when the pressed key is `KEY_SPACE`, and
then negates it, so two `KEY_SPACE` presses in a row restore it; the held keys
and the timer values play no part. -/
theorem running_flag_toggle (IsKeyDown IsKeyDown' : Int → Bool) (key_pressed : Int)
    (s : Globals) :
    Globals.initial.is_simulating = false
      ∧ ((process_keypress IsKeyDown key_pressed s).is_simulating ≠ s.is_simulating
          ↔ key_pressed = KEY_SPACE)
      ∧ (process_keypress IsKeyDown KEY_SPACE s).is_simulating = !s.is_simulating
      ∧ (process_keypress IsKeyDown' KEY_SPACE
          (process_keypress IsKeyDown KEY_SPACE s)).is_simulating = s.is_simulating := by
  refine ⟨rfl, ?_, ?_, ?_⟩
  · rw [process_keypress_is_simulating]
    by_cases h : key_pressed = KEY_SPACE
    · rw [if_pos h]
      cases s.is_simulating <;> simp [h]
    · rw [if_neg h]
      simp [h]
  · rw [process_keypress_is_simulating, if_pos rfl]
  · simp only [process_keypress_is_simulating, if_true, Bool.not_not]

/-! ## The all-dead grid -/

theorem get_neighbors_dead (x y : Int) (hx : 0 ≤ x ∧ x < 70) (hy : 0 ≤ y ∧ y < 50) :
    get_neighbors Grid.dead x y = 0 := by
  rw [get_neighbors_eq_sum _ x y hx hy]
  simp only [Grid.rd_dead]
  rfl

theorem update_universe_dead : update_universe Grid.dead = Grid.dead := by
  apply Grid.ext_rd
  intro i j hij
  have hb := (inBounds_iff i j).1 hij
  rw [rd_update_universe _ i j hij, get_neighbors_dead j i hb.2 hb.1, Grid.rd_dead]
  rfl

/-- Claim C12.  `init_universe` leaves every one of the 50 by 70 cells dead,
whatever the array held before, and `update_universe` applied to the all-dead
grid gives the all-dead grid. -/
theorem init_universe_all_dead (g : Grid) :
    (∀ (a : Fin universe_height) (b : Fin universe_width),
        ((init_universe g).get a).get b = false)
      ∧ init_universe g = Grid.dead
      ∧ update_universe Grid.dead = Grid.dead
      ∧ update_universe (init_universe g) = init_universe g := by
  rw [init_universe_eq, update_universe_dead]
  refine ⟨?_, rfl, rfl, rfl⟩
  intro a b
  rw [← Grid.rd_coe, Grid.rd_dead]

/-- Claim C13.  On the all-dead grid `get_neighbors` returns 0 for every cell
`(x, y)` with `0 ≤ x < 70` and `0 ≤ y < 50`, edge and corner cells included;
the grid `init_universe` produces is such a grid. -/
theorem get_neighbors_all_dead (x y : Int) (hx : 0 ≤ x ∧ x < 70) (hy : 0 ≤ y ∧ y < 50) :
    get_neighbors Grid.dead x y = 0 ∧ ∀ g : Grid, get_neighbors (init_universe g) x y = 0 := by
  refine ⟨get_neighbors_dead x y hx hy, ?_⟩
  intro g
  rw [init_universe_eq]
  exact get_neighbors_dead x y hx hy

/-- The statement of `get_neighbors_all_dead` at the corner cell `(69, 49)`. -/
theorem get_neighbors_all_dead_witness :
    get_neighbors Grid.dead 69 49 = 0
      ∧ ∀ g : Grid, get_neighbors (init_universe g) 69 49 = 0 :=
  get_neighbors_all_dead 69 49 (by decide) (by decide)

/-! ## Rendering -/

theorem forLoop_range {σ : Type} (lo : Int) (n : Nat) (body : Int → σ → σ) (s : σ) :
    forLoop lo (lo + n) body s
      = (List.range n).foldl (fun acc (k : Nat) => body (lo + (k : Int)) acc) s := by
  unfold forLoop
  simp

theorem forLoop_range_zero {σ : Type} (lo : Int) (body : Int → σ → σ) (s : σ) :
    forLoop lo (lo + ((0 : Nat) : Int)) body s = s := by
  rw [forLoop_range]
  rfl

theorem forLoop_range_succ {σ : Type} (lo : Int) (n : Nat) (body : Int → σ → σ) (s : σ) :
    forLoop lo (lo + ((n + 1 : Nat) : Int)) body s
      = body (lo + n) (forLoop lo (lo + n) body s) := by
  rw [forLoop_range, forLoop_range, List.range_succ, List.foldl_append]
  rfl

/-- A loop whose body leaves the first component alone and adds to the list in
the second component the elements `r` with `S a j r`, `j` the loop index: after
the loop the first component is unchanged and the list holds what it held plus
the elements with `S a j r` for the indices `j` of the range. -/
theorem mem_forLoop_acc {α β : Type} (S : α → Int → β → Prop) (lo : Int) (n : Nat)
    (body : Int → α × List β → α × List β)
    (hbody : ∀ j w, (body j w).1 = w.1 ∧ ∀ r, r ∈ (body j w).2 ↔ r ∈ w.2 ∨ S w.1 j r)
    (w : α × List β) :
    (forLoop lo (lo + n) body w).1 = w.1
      ∧ ∀ r, r ∈ (forLoop lo (lo + n) body w).2
          ↔ r ∈ w.2 ∨ ∃ j : Int, (lo ≤ j ∧ j < lo + n) ∧ S w.1 j r := by
  induction n with
  | zero =>
    rw [forLoop_range_zero]
    refine ⟨rfl, fun r => ⟨Or.inl, ?_⟩⟩
    rintro (h | ⟨j, hj, -⟩)
    · exact h
    · have := hj.1
      have := hj.2
      push_cast at *
      omega
  | succ n ih =>
    rw [forLoop_range_succ]
    obtain ⟨ih1, ih2⟩ := ih
    obtain ⟨hb1, hb2⟩ := hbody (lo + n) (forLoop lo (lo + n) body w)
    refine ⟨hb1.trans ih1, fun r => ?_⟩
    rw [hb2, ih2, ih1]
    constructor
    · rintro ((h | ⟨j, hj, hp⟩) | hp)
      · exact Or.inl h
      · exact Or.inr ⟨j, ⟨hj.1, by have := hj.2; push_cast; omega⟩, hp⟩
      · exact Or.inr ⟨lo + n, ⟨by omega, by push_cast; omega⟩, hp⟩
    · rintro (h | ⟨j, hj, hp⟩)
      · exact Or.inl (Or.inl h)
      · by_cases hjn : j = lo + n
        · subst hjn
          exact Or.inr hp
        · exact Or.inl (Or.inr ⟨j, ⟨hj.1, by have := hj.2; push_cast at this; omega⟩, hp⟩)

/-- What `render_universe` does: the globals are left as they are, and the
rectangles added to those already drawn are the squares of the live cells in
rows 10 to 39 and columns 10 to 59. -/
theorem render_universe_spec (w : Globals × List DrawRectangle) :
    (render_universe w).1 = w.1
      ∧ ∀ r, r ∈ (render_universe w).2
          ↔ r ∈ w.2 ∨ ∃ i j : Int, (10 ≤ i ∧ i < 40) ∧ (10 ≤ j ∧ j < 60)
              ∧ w.1.univ.rd i j = true ∧ r = cell_rect w.1.active_cell_color i j := by
  have eh : ((universe_height : Nat) : Int) - ((extra_space : Nat) : Int)
      = ((extra_space : Nat) : Int) + ((30 : Nat) : Int) := by decide
  have ew : ((universe_width : Nat) : Int) - ((extra_space : Nat) : Int)
      = ((extra_space : Nat) : Int) + ((50 : Nat) : Int) := by decide
  have key := mem_forLoop_acc
    (fun (s : Globals) (i : Int) (r : DrawRectangle) =>
      ∃ j : Int, (((extra_space : Nat) : Int) ≤ j ∧ j < ((extra_space : Nat) : Int) + ((50 : Nat) : Int))
        ∧ (fun (s : Globals) (j : Int) (r : DrawRectangle) =>
            s.univ.rd i j = true ∧ r = cell_rect s.active_cell_color i j) s j r)
    ((extra_space : Nat) : Int) 30
    (fun i w =>
      forLoop ((extra_space : Nat) : Int) (((extra_space : Nat) : Int) + ((50 : Nat) : Int))
        (fun j w =>
          if w.1.univ.rd i j then
            let x := j - extra_space
            let y := i - extra_space
            (w.1, w.2 ++ [⟨x * cell_size, y * cell_size, cell_size, cell_size,
              w.1.active_cell_color⟩])
          else w) w)
    (fun i v => mem_forLoop_acc
      (fun (s : Globals) (j : Int) (r : DrawRectangle) =>
        s.univ.rd i j = true ∧ r = cell_rect s.active_cell_color i j)
      ((extra_space : Nat) : Int) 50 _
      (fun j w => by
        by_cases hrd : w.1.univ.rd i j = true
        · rw [if_pos hrd]
          refine ⟨rfl, fun r => ?_⟩
          simp only [hrd, List.mem_append, List.mem_singleton, true_and]
          rfl
        · rw [if_neg hrd]
          refine ⟨rfl, fun r => ?_⟩
          simp only [hrd, Bool.false_eq_true, false_and, or_false]) v)
    w
  unfold render_universe
  rw [eh, ew]
  refine ⟨key.1, fun r => ?_⟩
  rw [key.2]
  constructor
  · rintro (h | ⟨i, hi, j, hj, hp, he⟩)
    · exact Or.inl h
    · exact Or.inr ⟨i, j, ⟨by have := hi.1; push_cast at this; omega,
        by have := hi.2; push_cast at this; omega⟩,
        ⟨by have := hj.1; push_cast at this; omega,
          by have := hj.2; push_cast at this; omega⟩, hp, he⟩
  · rintro (h | ⟨i, j, hi, hj, hp, he⟩)
    · exact Or.inl h
    · exact Or.inr ⟨i, ⟨by push_cast; omega, by push_cast; omega⟩, j,
        ⟨by push_cast; omega, by push_cast; omega⟩, hp, he⟩

theorem cell_rect_eq (c : Color) (i j : Int) :
    cell_rect c i j = ⟨(j - 10) * 20, (i - 10) * 20, 20, 20, c⟩ := rfl

theorem cell_rect_inj {c c' : Color} {i j i' j' : Int}
    (h : cell_rect c i j = cell_rect c' i' j') : i = i' ∧ j = j' := by
  rw [cell_rect_eq, cell_rect_eq] at h
  have hx := congrArg DrawRectangle.posX h
  have hy := congrArg DrawRectangle.posY h
  simp only at hx hy
  constructor <;> omega

/-- The square of cell `(i, j)` covers the pixel position `(p, q)` exactly when
`j` and `i` are the indices the click mapping computes from `p` and `q`. -/
theorem cell_rect_covers_iff (c : Color) (i j : Int) (p q : ℚ) :
    (cell_rect c i j).covers p q ↔ (j = ⌊p / 20⌋ + 10 ∧ i = ⌊q / 20⌋ + 10) := by
  have h20 : (0 : ℚ) < 20 := by norm_num
  have key : ∀ (k : Int) (t : ℚ),
      ((((k - 10) * 20 : Int) : ℚ) ≤ t ∧ t < (((k - 10) * 20 : Int) : ℚ) + ((20 : Int) : ℚ))
        ↔ k = ⌊t / 20⌋ + 10 := by
    intro k t
    have e : k = ⌊t / 20⌋ + 10 ↔ ⌊t / 20⌋ = k - 10 := by
      constructor <;> intro h <;> omega
    rw [e, Int.floor_eq_iff, le_div_iff₀ h20, div_lt_iff₀ h20]
    push_cast
    constructor
    · rintro ⟨h1, h2⟩
      exact ⟨by linarith, by linarith⟩
    · rintro ⟨h1, h2⟩
      exact ⟨by linarith, by linarith⟩
  unfold DrawRectangle.covers
  rw [cell_rect_eq]
  simp only
  rw [key j p, key i q]

/-- Claim C14.  Click mapping inverts the render mapping: both per-cell divisors
of the click mapping evaluate to `cell_size`, which is 20; for every pixel
position inside the 1000 by 600 window the mapped cell lies in the visible
region `10 ≤ cell_x < 60`, `10 ≤ cell_y < 40`, the click toggles that cell, the
square `render_universe` draws for that cell covers the pixel, it is drawn when
the cell is alive, and no other drawn square covers the pixel. -/
theorem click_maps_to_drawn_cell (c : Vector2) (s : Globals)
    (hx : 0 ≤ c.x ∧ c.x < 1000) (hy : 0 ≤ c.y ∧ c.y < 600) :
    (screen_width / (universe_width - 2 * extra_space) : Int) = cell_size
      ∧ (screen_height / (universe_height - 2 * extra_space) : Int) = cell_size
      ∧ cell_size = 20
      ∧ (10 ≤ click_cell_x c ∧ click_cell_x c < 60)
      ∧ (10 ≤ click_cell_y c ∧ click_cell_y c < 40)
      ∧ (⟨(click_cell_x c - 10) * 20, (click_cell_y c - 10) * 20, 20, 20,
            s.active_cell_color⟩ : DrawRectangle).covers c.x c.y
      ∧ main_click c s.univ = update_cell s.univ (click_cell_x c) (click_cell_y c)
      ∧ (s.univ.rd (click_cell_y c) (click_cell_x c) = true →
          (⟨(click_cell_x c - 10) * 20, (click_cell_y c - 10) * 20, 20, 20,
              s.active_cell_color⟩ : DrawRectangle) ∈ (render_universe (s, [])).2)
      ∧ (∀ r ∈ (render_universe (s, [])).2, r.covers c.x c.y →
          r = ⟨(click_cell_x c - 10) * 20, (click_cell_y c - 10) * 20, 20, 20,
            s.active_cell_color⟩) := by
  have hcx : 10 ≤ click_cell_x c ∧ click_cell_x c < 60 := by
    rw [click_cell_x_eq, floor_div_twenty_bounds]
    norm_num
    exact hx
  have hcy : 10 ≤ click_cell_y c ∧ click_cell_y c < 40 := by
    rw [click_cell_y_eq, floor_div_twenty_bounds]
    norm_num
    exact hy
  have hcov : (cell_rect s.active_cell_color (click_cell_y c) (click_cell_x c)).covers c.x c.y :=
    (cell_rect_covers_iff _ _ _ _ _).2 ⟨click_cell_x_eq c, click_cell_y_eq c⟩
  refine ⟨by decide, by decide, rfl, hcx, hcy, hcov, ?_, ?_, ?_⟩
  · unfold main_click
    rw [if_pos hx.1]
  · intro hrd
    rw [(render_universe_spec (s, [])).2]
    exact Or.inr ⟨_, _, hcy, hcx, hrd, rfl⟩
  · intro r hr hc
    rw [(render_universe_spec (s, [])).2] at hr
    rcases hr with hr | ⟨i, j, -, -, -, rfl⟩
    · exact absurd hr (List.not_mem_nil r)
    · obtain ⟨hj, hi⟩ := (cell_rect_covers_iff _ _ _ _ _).1 hc
      rw [hi, hj, ← click_cell_x_eq, ← click_cell_y_eq]
      rfl

/-- The statement of `click_maps_to_drawn_cell` at the pixel `(305, 207)` and
the start-up state. -/
theorem click_maps_to_drawn_cell_witness :
    (screen_width / (universe_width - 2 * extra_space) : Int) = cell_size
      ∧ (screen_height / (universe_height - 2 * extra_space) : Int) = cell_size
      ∧ cell_size = 20
      ∧ (10 ≤ click_cell_x ⟨305, 207⟩ ∧ click_cell_x ⟨305, 207⟩ < 60)
      ∧ (10 ≤ click_cell_y ⟨305, 207⟩ ∧ click_cell_y ⟨305, 207⟩ < 40)
      ∧ (⟨(click_cell_x ⟨305, 207⟩ - 10) * 20, (click_cell_y ⟨305, 207⟩ - 10) * 20, 20, 20,
            Globals.initial.active_cell_color⟩ : DrawRectangle).covers 305 207
      ∧ main_click ⟨305, 207⟩ Globals.initial.univ
          = update_cell Globals.initial.univ (click_cell_x ⟨305, 207⟩) (click_cell_y ⟨305, 207⟩) :=
  have h := click_maps_to_drawn_cell ⟨305, 207⟩ Globals.initial
    (by norm_num) (by norm_num)
  ⟨h.1, h.2.1, h.2.2.1, h.2.2.2.1, h.2.2.2.2.1, h.2.2.2.2.2.1, h.2.2.2.2.2.2.1⟩

/-! ## Key presses: the key-repeat block -/

/-- The key-repeat timer after the key-repeat block: reset once the cooldown is
reached, whatever keys are held. -/
theorem repeat_key_press_timer (IsKeyDown : Int → Bool) (s : Globals) :
    (process_keypress_repeat IsKeyDown s).key_press_timer
      = if s.key_press_timer ≥ key_press_cooldown then 0 else s.key_press_timer := by
  unfold process_keypress_repeat
  by_cases h : s.key_press_timer ≥ key_press_cooldown
  · rw [if_pos h, if_pos h]
    show (0.0 : ℚ) = 0
    norm_num
  · rw [if_neg h, if_neg h]

theorem repeat_below_cooldown (IsKeyDown : Int → Bool) (s : Globals)
    (h : s.key_press_timer < key_press_cooldown) : process_keypress_repeat IsKeyDown s = s := by
  unfold process_keypress_repeat
  rw [if_neg (not_le.2 h)]

theorem key_press_cooldown_eq : key_press_cooldown = 0.12 := rfl

/-- Claim C15, as stated, fails.  With the key-repeat timer at 0.5, past the
cooldown, and neither tempo key held, the key-repeat block resets the timer to
0: it does not leave the timer unchanged. -/
theorem repeat_resets_without_key :
    ({ Globals.initial with key_press_timer := 0.5 } : Globals).key_press_timer
        ≥ key_press_cooldown
      ∧ (fun _ => false : Int → Bool) KEY_MINUS = false
      ∧ (fun _ => false : Int → Bool) KEY_EQUAL = false
      ∧ (process_keypress_repeat (fun _ => false)
          { Globals.initial with key_press_timer := 0.5 }).key_press_timer = 0
      ∧ (process_keypress_repeat (fun _ => false)
          { Globals.initial with key_press_timer := 0.5 }).key_press_timer
        ≠ ({ Globals.initial with key_press_timer := 0.5 } : Globals).key_press_timer := by
  have h : ({ Globals.initial with key_press_timer := 0.5 } : Globals).key_press_timer
      ≥ key_press_cooldown := by
    show (0.5 : ℚ) ≥ 0.12
    norm_num
  have h0 : (process_keypress_repeat (fun _ => false)
      { Globals.initial with key_press_timer := 0.5 }).key_press_timer = 0 := by
    rw [repeat_key_press_timer, if_pos h]
  refine ⟨h, rfl, rfl, h0, ?_⟩
  rw [h0]
  show (0 : ℚ) ≠ 0.5
  norm_num

/-- Claim C15, amended.  The key-repeat block resets the key-repeat timer to 0
exactly when the timer has reached the cooldown (`timer ≥ 0.12`), whether or
not a tempo key is held.  With the timer below the cooldown it changes nothing;
with neither tempo key held it leaves the tempo unchanged.  With the cooldown
reached, 0.02 is added to the tempo if the increment key is held and then 0.02
is subtracted if the decrement key is held and the result stays at or above
0.02.  So the tempo changes only if the cooldown is reached and a tempo key is
held. -/
theorem repeat_step (IsKeyDown : Int → Bool) (s : Globals) :
    ((process_keypress_repeat IsKeyDown s).key_press_timer
        = if s.key_press_timer ≥ 0.12 then 0 else s.key_press_timer)
      ∧ (s.key_press_timer < 0.12 → process_keypress_repeat IsKeyDown s = s)
      ∧ (IsKeyDown KEY_MINUS = false ∧ IsKeyDown KEY_EQUAL = false →
          (process_keypress_repeat IsKeyDown s).universe_tempo = s.universe_tempo)
      ∧ (s.key_press_timer ≥ 0.12 →
          (process_keypress_repeat IsKeyDown s).universe_tempo
            = if IsKeyDown KEY_EQUAL = true
                ∧ (if IsKeyDown KEY_MINUS then s.universe_tempo + 0.02 else s.universe_tempo)
                    - 0.02 ≥ 0.02
              then (if IsKeyDown KEY_MINUS then s.universe_tempo + 0.02 else s.universe_tempo)
                    - 0.02
              else (if IsKeyDown KEY_MINUS then s.universe_tempo + 0.02 else s.universe_tempo))
      ∧ ((process_keypress_repeat IsKeyDown s).universe_tempo ≠ s.universe_tempo →
          s.key_press_timer ≥ 0.12
            ∧ (IsKeyDown KEY_MINUS = true ∨ IsKeyDown KEY_EQUAL = true)) := by
  rw [← key_press_cooldown_eq]
  refine ⟨repeat_key_press_timer IsKeyDown s, repeat_below_cooldown IsKeyDown s,
    fun h => repeat_tempo_idle IsKeyDown s (Or.inr h), ?_, ?_⟩
  · intro h
    rw [repeat_tempo, if_pos h]
    simp only [and_comm]
  · intro hne
    by_cases ht : s.key_press_timer ≥ key_press_cooldown
    · refine ⟨ht, ?_⟩
      by_contra hk
      rw [not_or] at hk
      apply hne
      apply repeat_tempo_idle
      right
      exact ⟨by simpa using hk.1, by simpa using hk.2⟩
    · exact absurd (repeat_tempo_idle IsKeyDown s (Or.inl (not_le.1 ht))) hne

/-- The statement of `repeat_step` with the timer at 0.12 and only the
increment key held, from the start-up tempo: the timer is reset and the tempo
is raised by 0.02. -/
theorem repeat_step_witness :
    (process_keypress_repeat (fun k => decide (k = KEY_MINUS))
        { Globals.initial with key_press_timer := 0.12 }).key_press_timer = 0
      ∧ (process_keypress_repeat (fun k => decide (k = KEY_MINUS))
          { Globals.initial with key_press_timer := 0.12 }).universe_tempo
        = Globals.initial.universe_tempo + 0.02 :=
  have h := repeat_step (fun k => decide (k = KEY_MINUS))
    { Globals.initial with key_press_timer := 0.12 }
  have ht : ({ Globals.initial with key_press_timer := 0.12 } : Globals).key_press_timer
      ≥ 0.12 := le_refl _
  ⟨h.1.trans (if_pos ht), (h.2.2.2.1 ht).trans (by
    rw [if_neg (fun hc => absurd hc.1 (by decide))]
    rw [if_pos (by decide)])⟩

/-- Claim C16.  One-shot and repeat adjustments stack: when the pressed key is
the increment key `KEY_MINUS`, that key is held and the decrement key is not,
the tempo rises by exactly 0.04 if the key-repeat timer is at least 0.12 and by
exactly 0.02 if it is below. -/
theorem tempo_adjustments_stack (IsKeyDown : Int → Bool) (s : Globals)
    (hminus : IsKeyDown KEY_MINUS = true) (hequal : IsKeyDown KEY_EQUAL = false) :
    (s.key_press_timer ≥ 0.12 →
        (process_keypress IsKeyDown KEY_MINUS s).universe_tempo = s.universe_tempo + 0.04)
      ∧ (s.key_press_timer < 0.12 →
        (process_keypress IsKeyDown KEY_MINUS s).universe_tempo = s.universe_tempo + 0.02) := by
  rw [← key_press_cooldown_eq]
  unfold process_keypress
  constructor
  · intro h
    rw [repeat_tempo, switch_key_press_timer, if_pos h, hminus, hequal, switch_tempo,
      if_pos rfl]
    simp only [if_true, Bool.false_eq_true, and_false, if_false]
    norm_num
    ring
  · intro h
    rw [repeat_tempo, switch_key_press_timer, if_neg (not_le.2 h), switch_tempo, if_pos rfl]

/-- The statement of `tempo_adjustments_stack` with only the increment key held,
from the start-up state with the timer at 0.12 and at 0.05. -/
theorem tempo_adjustments_stack_witness :
    (process_keypress (fun k => decide (k = KEY_MINUS)) KEY_MINUS
        { Globals.initial with key_press_timer := 0.12 }).universe_tempo
        = Globals.initial.universe_tempo + 0.04
      ∧ (process_keypress (fun k => decide (k = KEY_MINUS)) KEY_MINUS
          { Globals.initial with key_press_timer := 0.05 }).universe_tempo
        = Globals.initial.universe_tempo + 0.02 :=
  ⟨(tempo_adjustments_stack (fun k => decide (k = KEY_MINUS))
      { Globals.initial with key_press_timer := 0.12 } (by decide) (by decide)).1 (le_refl _),
    (tempo_adjustments_stack (fun k => decide (k = KEY_MINUS))
      { Globals.initial with key_press_timer := 0.05 } (by decide) (by decide)).2
      (by show (0.05 : ℚ) < 0.12; norm_num)⟩

/-! ## The frame -/

theorem switch_univ (key_pressed : Int) (s : Globals) :
    (process_keypress_switch key_pressed s).univ = s.univ := by
  unfold process_keypress_switch set_font_theme
  simp only [apply_ite Globals.univ, ite_self]

theorem repeat_univ (IsKeyDown : Int → Bool) (s : Globals) :
    (process_keypress_repeat IsKeyDown s).univ = s.univ := by
  obtain ⟨t, k, h⟩ := repeat_frame IsKeyDown s
  rw [h]

theorem process_keypress_univ (IsKeyDown : Int → Bool) (key_pressed : Int) (s : Globals) :
    (process_keypress IsKeyDown key_pressed s).univ = s.univ := by
  unfold process_keypress
  rw [repeat_univ, switch_univ]

theorem switch_universe_timer (key_pressed : Int) (s : Globals) :
    (process_keypress_switch key_pressed s).universe_timer = s.universe_timer := by
  unfold process_keypress_switch set_font_theme
  simp only [apply_ite Globals.universe_timer, ite_self]

theorem process_keypress_universe_timer (IsKeyDown : Int → Bool) (key_pressed : Int)
    (s : Globals) :
    (process_keypress IsKeyDown key_pressed s).universe_timer = s.universe_timer := by
  unfold process_keypress
  obtain ⟨t, k, h⟩ := repeat_frame IsKeyDown (process_keypress_switch key_pressed s)
  rw [h]
  exact switch_universe_timer key_pressed s

/-- The step gating, case by case. -/
theorem main_simulate_eq (dt : ℚ) (s : Globals) :
    main_simulate dt s
      = if s.is_simulating = true ∧ s.universe_timer + dt ≥ s.universe_tempo then
          { s with univ := update_universe s.univ, universe_timer := 0 }
        else if s.is_simulating = true then
          { s with universe_timer := s.universe_timer + dt }
        else s := by
  unfold main_simulate
  by_cases h1 : s.is_simulating = true
  · rw [if_pos h1]
    show (if s.universe_timer + dt ≥ s.universe_tempo then
        ({ s with univ := update_universe s.univ, universe_timer := 0.0 } : Globals)
      else { s with universe_timer := s.universe_timer + dt }) = _
    have e0 : (0.0 : ℚ) = 0 := by norm_num
    rw [e0]
    by_cases h2 : s.universe_timer + dt ≥ s.universe_tempo
    · rw [if_pos h2, if_pos ⟨h1, h2⟩]
    · rw [if_neg h2, if_neg (fun h => h2 h.2), if_pos h1]
  · rw [if_neg h1, if_neg (fun h => h1 h.1), if_neg h1]

/-- The globals a frame leaves: rendering changes none of them. -/
theorem main_frame_globals (inp : FrameInput) (s : Globals) :
    (main_frame inp s).1
      = { get_click inp.IsMouseButtonPressed inp.GetMousePosition
            (main_simulate inp.GetFrameTime (main_dispatch inp s)) with
          univ := main_click
            (get_click inp.IsMouseButtonPressed inp.GetMousePosition
              (main_simulate inp.GetFrameTime (main_dispatch inp s))).click_position
            (get_click inp.IsMouseButtonPressed inp.GetMousePosition
              (main_simulate inp.GetFrameTime (main_dispatch inp s))).univ } := by
  unfold main_frame
  exact (render_universe_spec _).1

theorem get_click_univ (b : Bool) (m : Vector2) (s : Globals) :
    (get_click b m s).univ = s.univ ∧ (get_click b m s).universe_timer = s.universe_timer
      ∧ (get_click b m s).click_position = if b then m else ⟨-1.0, -1.0⟩ := by
  unfold get_click
  cases b <;> exact ⟨rfl, rfl, rfl⟩

/-- The cells after `update_cell` at a cell of the array. -/
theorem rd_update_cell (g : Grid) (x y : Int) (hb : InBounds y x) (i j : Int) :
    (update_cell g x y).rd i j = if i = y ∧ j = x then !(g.rd y x) else g.rd i j := by
  unfold update_cell
  rw [Grid.rd_wr]
  by_cases h : i = y ∧ j = x
  · have hc : InBounds i j ∧ i = y ∧ j = x := ⟨by rw [h.1, h.2]; exact hb, h⟩
    rw [if_pos hc, if_pos h]
    cases g.rd y x <;> rfl
  · have hc : ¬ (InBounds i j ∧ i = y ∧ j = x) := fun hc => h hc.2
    rw [if_neg hc, if_neg h]

/-- A click at a pixel position with `0 ≤ x < 1200` and `-200 ≤ y < 800` maps
to a cell of the array. -/
theorem click_cell_in_array (c : Vector2) (hx : 0 ≤ c.x ∧ c.x < 1200)
    (hy : -200 ≤ c.y ∧ c.y < 800) :
    (0 ≤ click_cell_x c ∧ click_cell_x c < 70) ∧ (0 ≤ click_cell_y c ∧ click_cell_y c < 50) := by
  rw [click_cell_x_eq, click_cell_y_eq, floor_div_twenty_bounds, floor_div_twenty_bounds]
  norm_num
  exact ⟨⟨by linarith [hx.1], hx.2⟩, hy⟩

/-- Claim C17.  Step gating in one frame, for a frame whose click, if one is
handled, maps to a cell of the array: after the key dispatch, the grid is
replaced by `update_universe` of itself and the step timer becomes 0 exactly
when the simulation is running and the step timer plus the frame time is at
least the tempo; when running below the tempo only the frame time is added to
the step timer; when paused nothing changes in this step.  The key dispatch
changes neither the grid nor the step timer, so in a paused frame the step
timer is left as it was and the grid changes only by the click toggle.  After
the gating the grid is left as it is when no click is handled, and a handled
click negates the cell it maps to and no other. -/
theorem frame_step_gating (inp : FrameInput) (s : Globals)
    (hclick : inp.IsMouseButtonPressed = true → inp.GetMousePosition.x ≥ 0 →
      (0 ≤ click_cell_x inp.GetMousePosition ∧ click_cell_x inp.GetMousePosition < 70)
        ∧ (0 ≤ click_cell_y inp.GetMousePosition ∧ click_cell_y inp.GetMousePosition < 50)) :
    (main_simulate inp.GetFrameTime (main_dispatch inp s)
        = if (main_dispatch inp s).is_simulating = true
              ∧ (main_dispatch inp s).universe_timer + inp.GetFrameTime
                  ≥ (main_dispatch inp s).universe_tempo then
            { main_dispatch inp s with
              univ := update_universe (main_dispatch inp s).univ, universe_timer := 0 }
          else if (main_dispatch inp s).is_simulating = true then
            { main_dispatch inp s with
              universe_timer := (main_dispatch inp s).universe_timer + inp.GetFrameTime }
          else main_dispatch inp s)
      ∧ (main_dispatch inp s).univ = s.univ
      ∧ (main_dispatch inp s).universe_timer = s.universe_timer
      ∧ (main_frame inp s).1.univ
          = main_click (if inp.IsMouseButtonPressed then inp.GetMousePosition else ⟨-1.0, -1.0⟩)
              (main_simulate inp.GetFrameTime (main_dispatch inp s)).univ
      ∧ (main_frame inp s).1.universe_timer
          = (main_simulate inp.GetFrameTime (main_dispatch inp s)).universe_timer
      ∧ ((main_dispatch inp s).is_simulating = false →
          (main_frame inp s).1.universe_timer = s.universe_timer
          ∧ (main_frame inp s).1.univ
              = main_click
                  (if inp.IsMouseButtonPressed then inp.GetMousePosition else ⟨-1.0, -1.0⟩)
                  s.univ
          ∧ (inp.IsMouseButtonPressed = false → (main_frame inp s).1.univ = s.univ))
      ∧ (inp.IsMouseButtonPressed = false ∨ inp.GetMousePosition.x < 0 →
          (main_frame inp s).1.univ
            = (main_simulate inp.GetFrameTime (main_dispatch inp s)).univ)
      ∧ (inp.IsMouseButtonPressed = true ∧ inp.GetMousePosition.x ≥ 0 →
          (main_frame inp s).1.univ
              = update_cell (main_simulate inp.GetFrameTime (main_dispatch inp s)).univ
                  (click_cell_x inp.GetMousePosition) (click_cell_y inp.GetMousePosition)
          ∧ ∀ i j : Int, (main_frame inp s).1.univ.rd i j
              = if i = click_cell_y inp.GetMousePosition ∧ j = click_cell_x inp.GetMousePosition
                then !((main_simulate inp.GetFrameTime (main_dispatch inp s)).univ.rd
                  (click_cell_y inp.GetMousePosition) (click_cell_x inp.GetMousePosition))
                else (main_simulate inp.GetFrameTime (main_dispatch inp s)).univ.rd i j) := by
  have hu : (main_dispatch inp s).univ = s.univ := by
    unfold main_dispatch
    rw [process_keypress_univ]
  have ht : (main_dispatch inp s).universe_timer = s.universe_timer := by
    unfold main_dispatch
    rw [process_keypress_universe_timer]
  have hg := get_click_univ inp.IsMouseButtonPressed inp.GetMousePosition
    (main_simulate inp.GetFrameTime (main_dispatch inp s))
  have hfu : (main_frame inp s).1.univ
      = main_click (if inp.IsMouseButtonPressed then inp.GetMousePosition else ⟨-1.0, -1.0⟩)
          (main_simulate inp.GetFrameTime (main_dispatch inp s)).univ := by
    rw [main_frame_globals]
    show main_click _ _ = _
    rw [hg.1, hg.2.2]
  have hft : (main_frame inp s).1.universe_timer
      = (main_simulate inp.GetFrameTime (main_dispatch inp s)).universe_timer := by
    rw [main_frame_globals]
    exact hg.2.1
  have hnone : ∀ g : Grid, main_click ⟨-1.0, -1.0⟩ g = g := by
    intro g
    unfold main_click
    rw [if_neg]
    show ¬ ((-1.0 : ℚ) ≥ 0)
    norm_num
  refine ⟨main_simulate_eq _ _, hu, ht, hfu, hft, ?_, ?_, ?_⟩
  · intro hp
    have hs : main_simulate inp.GetFrameTime (main_dispatch inp s) = main_dispatch inp s := by
      rw [main_simulate_eq, if_neg, if_neg]
      · rw [hp]; decide
      · rw [hp]; simp
    rw [hfu, hft, hs, hu, ht]
    refine ⟨rfl, rfl, ?_⟩
    intro hb
    rw [hb]
    exact hnone _
  · rintro (hb | hx)
    · rw [hfu, hb]
      exact hnone _
    · rw [hfu]
      cases inp.IsMouseButtonPressed
      · exact hnone _
      · unfold main_click
        rw [if_pos rfl, if_neg (not_le.2 hx)]
  · rintro ⟨hb, hx⟩
    have hin := hclick hb hx
    have hfc : (main_frame inp s).1.univ
        = update_cell (main_simulate inp.GetFrameTime (main_dispatch inp s)).univ
            (click_cell_x inp.GetMousePosition) (click_cell_y inp.GetMousePosition) := by
      rw [hfu, hb]
      unfold main_click
      rw [if_pos rfl, if_pos hx]
    refine ⟨hfc, fun i j => ?_⟩
    rw [hfc, rd_update_cell _ _ _ ((inBounds_iff _ _).2 ⟨hin.2, hin.1⟩)]

/-- The key dispatch leaves the tempo as it was when no tempo key is pressed or
held. -/
theorem dispatch_idle_tempo (inp : FrameInput) (s : Globals)
    (hkey : inp.GetKeyPressed ≠ KEY_MINUS ∧ inp.GetKeyPressed ≠ KEY_EQUAL)
    (hheld : inp.IsKeyDown KEY_MINUS = false ∧ inp.IsKeyDown KEY_EQUAL = false) :
    (main_dispatch inp s).universe_tempo = s.universe_tempo := by
  unfold main_dispatch process_keypress
  rw [repeat_tempo_idle _ _ (Or.inr hheld), switch_tempo, if_neg hkey.1, if_neg hkey.2]

/-- The statement of `frame_step_gating` at a running frame that reaches the
tempo (0.19 + 0.016 against 0.2) and has a click at pixel `(305, 207)`: the step
timer becomes 0 and the grid is the stepped grid with the clicked cell
toggled. -/
theorem frame_step_gating_witness :
    (main_frame sample_frame_input sample_running_state).1.universe_timer = 0
      ∧ (main_frame sample_frame_input sample_running_state).1.univ
        = update_cell (update_universe sample_running_state.univ)
            (click_cell_x sample_frame_input.GetMousePosition)
            (click_cell_y sample_frame_input.GetMousePosition) := by
  have h := frame_step_gating sample_frame_input sample_running_state
    (fun _ _ => click_cell_in_array ⟨305, 207⟩ (by norm_num) (by norm_num))
  obtain ⟨h1, h2, h3, -, h5, -, -, h8⟩ := h
  have hrun : (main_dispatch sample_frame_input sample_running_state).is_simulating = true := by
    unfold main_dispatch
    rw [process_keypress_is_simulating]
    have hk : ¬ sample_frame_input.GetKeyPressed = KEY_SPACE := by decide
    rw [if_neg hk]
    rfl
  have htempo := dispatch_idle_tempo sample_frame_input sample_running_state
    ⟨by decide, by decide⟩ ⟨rfl, rfl⟩
  have hcond : (main_dispatch sample_frame_input sample_running_state).universe_timer
      + sample_frame_input.GetFrameTime
      ≥ (main_dispatch sample_frame_input sample_running_state).universe_tempo := by
    rw [h3, htempo]
    show (0.19 : ℚ) + 0.016 ≥ 0.2
    norm_num
  rw [if_pos ⟨hrun, hcond⟩] at h1
  have h8' := (h8 ⟨rfl, by show (305 : ℚ) ≥ 0; norm_num⟩).1
  rw [h1] at h5 h8'
  rw [← h2]
  simp only at h5 h8'
  exact ⟨h5, h8'⟩

/-- Claim C18.  For every grid, `render_universe` emits a filled square for the
cell in row `i`, column `j` exactly when that cell is alive and `10 ≤ i < 40`,
`10 ≤ j < 60`; the square has origin `((j - 10) * 20, (i - 10) * 20)` and side
20, lies inside the 1000 by 600 window, and the squares of distinct cells share
no pixel position.  `render_universe` leaves the globals, the grid among them,
as they were. -/
theorem render_universe_squares (s : Globals) (drawn : List DrawRectangle) :
    (∀ r, r ∈ (render_universe (s, [])).2
        ↔ ∃ i j : Int, (10 ≤ i ∧ i < 40) ∧ (10 ≤ j ∧ j < 60) ∧ s.univ.rd i j = true
            ∧ r = ⟨(j - 10) * 20, (i - 10) * 20, 20, 20, s.active_cell_color⟩)
      ∧ (∀ i j : Int,
          (⟨(j - 10) * 20, (i - 10) * 20, 20, 20, s.active_cell_color⟩ : DrawRectangle)
              ∈ (render_universe (s, [])).2
            ↔ (s.univ.rd i j = true ∧ (10 ≤ i ∧ i < 40) ∧ (10 ≤ j ∧ j < 60)))
      ∧ (∀ i j : Int, (10 ≤ i ∧ i < 40) → (10 ≤ j ∧ j < 60) →
          (0 ≤ (j - 10) * 20 ∧ (j - 10) * 20 + 20 ≤ screen_width)
            ∧ (0 ≤ (i - 10) * 20 ∧ (i - 10) * 20 + 20 ≤ screen_height))
      ∧ (∀ (i j i' j' : Int) (p q : ℚ),
          (⟨(j - 10) * 20, (i - 10) * 20, 20, 20, s.active_cell_color⟩ : DrawRectangle).covers p q →
          (⟨(j' - 10) * 20, (i' - 10) * 20, 20, 20, s.active_cell_color⟩ : DrawRectangle).covers p q →
          i = i' ∧ j = j')
      ∧ (render_universe (s, drawn)).1 = s := by
  have hmem : ∀ r, r ∈ (render_universe (s, [])).2
      ↔ ∃ i j : Int, (10 ≤ i ∧ i < 40) ∧ (10 ≤ j ∧ j < 60) ∧ s.univ.rd i j = true
          ∧ r = cell_rect s.active_cell_color i j := by
    intro r
    rw [(render_universe_spec (s, [])).2 r]
    simp only [List.not_mem_nil, false_or]
  refine ⟨hmem, ?_, ?_, ?_, (render_universe_spec (s, drawn)).1⟩
  · intro i j
    rw [hmem]
    constructor
    · rintro ⟨i', j', hi, hj, hrd, he⟩
      obtain ⟨rfl, rfl⟩ := cell_rect_inj he
      exact ⟨hrd, hi, hj⟩
    · rintro ⟨hrd, hi, hj⟩
      exact ⟨i, j, hi, hj, hrd, rfl⟩
  · intro i j hi hj
    unfold screen_width screen_height
    omega
  · intro i j i' j' p q h1 h2
    have e1 := (cell_rect_covers_iff s.active_cell_color i j p q).1 h1
    have e2 := (cell_rect_covers_iff s.active_cell_color i' j' p q).1 h2
    omega

/-- The statement of `render_universe_squares` at the grid whose only live cell
is `(25, 20)`: its square, with origin `(300, 200)`, is drawn. -/
theorem render_universe_squares_witness :
    (⟨(25 - 10) * 20, (20 - 10) * 20, 20, 20, Globals.initial.active_cell_color⟩
        : DrawRectangle)
      ∈ (render_universe ({ Globals.initial with univ := grid_of_cells [(25, 20)] }, [])).2
      ∧ (render_universe ({ Globals.initial with univ := grid_of_cells [(25, 20)] }, [])).1
        = { Globals.initial with univ := grid_of_cells [(25, 20)] } :=
  have h := render_universe_squares { Globals.initial with univ := grid_of_cells [(25, 20)] } []
  ⟨(h.2.1 20 25).2 ⟨(rd_grid_of_cells [(25, 20)] (by decide) 20 25).trans (by decide),
    by decide, by decide⟩, h.2.2.2.2⟩

/-! ## Keys without a case -/

theorem switch_unhandled (key_pressed : Int) (s : Globals) (h : key_pressed ∉ handled_keys) :
    process_keypress_switch key_pressed s = s := by
  simp only [handled_keys, List.mem_cons, List.mem_singleton, not_or, List.not_mem_nil,
    not_false_eq_true, and_true] at h
  obtain ⟨h1, h2, h3, h4, h5, h6, h7, h8, h9, h10, h11, h12, h13⟩ := h
  unfold process_keypress_switch
  rw [if_neg h1, if_neg h2, if_neg h3, if_neg h4, if_neg h5, if_neg h6, if_neg h7, if_neg h8,
    if_neg h9, if_neg h10, if_neg h11, if_neg h12, if_neg h13]

/-- Claim C19.  Unrecognised keys are no-ops: for a key the `switch` has no case
for (0, no key pressed, among them), with neither tempo key held,
`process_keypress` leaves the grid, the running flag, the tempo and the four
theme colours as they were; and `process_keypress` leaves the grid as it was
for every key and every held-key state. -/
theorem unhandled_key_noop (IsKeyDown : Int → Bool) (key_pressed : Int) (s : Globals)
    (hkey : key_pressed ∉ handled_keys)
    (hheld : IsKeyDown KEY_MINUS = false ∧ IsKeyDown KEY_EQUAL = false) :
    (process_keypress IsKeyDown key_pressed s).univ = s.univ
      ∧ (process_keypress IsKeyDown key_pressed s).is_simulating = s.is_simulating
      ∧ (process_keypress IsKeyDown key_pressed s).universe_tempo = s.universe_tempo
      ∧ (process_keypress IsKeyDown key_pressed s).theme = s.theme
      ∧ ∀ (IsKeyDown' : Int → Bool) (key_pressed' : Int),
          (process_keypress IsKeyDown' key_pressed' s).univ = s.univ := by
  have hsw := switch_unhandled key_pressed s hkey
  refine ⟨process_keypress_univ _ _ _, ?_, ?_, ?_, fun f k => process_keypress_univ f k s⟩
  · unfold process_keypress
    rw [hsw]
    obtain ⟨t, k, h⟩ := repeat_frame IsKeyDown s
    rw [h]
  · unfold process_keypress
    rw [hsw, repeat_tempo_idle _ _ (Or.inr hheld)]
  · rw [process_keypress_theme, hsw]

/-- The statement of `unhandled_key_noop` at key code 0 (no key pressed), no key
held, and the start-up state. -/
theorem unhandled_key_noop_witness :
    (process_keypress (fun _ => false) 0 Globals.initial).univ = Globals.initial.univ
      ∧ (process_keypress (fun _ => false) 0 Globals.initial).is_simulating
        = Globals.initial.is_simulating
      ∧ (process_keypress (fun _ => false) 0 Globals.initial).universe_tempo
        = Globals.initial.universe_tempo
      ∧ (process_keypress (fun _ => false) 0 Globals.initial).theme = Globals.initial.theme
      ∧ ∀ (IsKeyDown' : Int → Bool) (key_pressed' : Int),
          (process_keypress IsKeyDown' key_pressed' Globals.initial).univ
            = Globals.initial.univ :=
  unhandled_key_noop (fun _ => false) 0 Globals.initial (by decide) ⟨rfl, rfl⟩

/-! ## The start-up theme -/

/-- Claim C20.  The theme the program starts with is preset 0: pressing `'0'`
in the start-up state leaves the four colours as they are, and pressing `'0'`
in any state (so after any other preset) gives the start-up colours: white for
dead cells, black for live cells and the two dark text colours. -/
theorem initial_theme_is_preset_zero (IsKeyDown : Int → Bool) (s : Globals) :
    (process_keypress IsKeyDown KEY_ZERO Globals.initial).theme = Globals.initial.theme
      ∧ (process_keypress IsKeyDown KEY_ZERO s).theme = Globals.initial.theme
      ∧ Globals.initial.theme = (⟨255, 255, 255, 255⟩, ⟨0, 0, 0, 255⟩, ⟨0, 0, 0, 50⟩, ⟨0, 0, 0, 32⟩) := by
  have h : ∀ t : Globals, (process_keypress IsKeyDown KEY_ZERO t).theme = Globals.initial.theme := by
    intro t
    rw [process_keypress_theme]
    have := switch_digit_theme 0 (by decide) t
    simp only [Nat.cast_zero, add_zero] at this
    rw [this]
    rfl
  exact ⟨h _, h _, rfl⟩

end GameOfLife
